import Mathlib

/-!
# gojenkins: the retry engine and the response verification pipeline

A shallow embedding of `retrier.go`, `requestor.go`, `jenkins_api.go`,
`queue_api.go` and `job_api.go`.

Go closures with side effects are state transformers over an explicit
state `σ`; the Go runtime's choices (which case of a `select` fires, what
the server answers, what the clock reads) are inputs of the model.
-/

namespace Gojenkins

/-! ## Errors -/

/-- Go `error` values that occur in the package.  A nil error is `none` of
`Option GoError`. -/
inductive GoError where
  /-- `errors.New(msg)` and `fmt.Errorf(...)` with the rendered message. -/
  | errorString (msg : String)
  /-- `context.Canceled`. -/
  | canceled
  /-- `context.DeadlineExceeded`. -/
  | deadlineExceeded
  /-- An error value made by a library (net/http, encoding/json, io). -/
  | external (msg : String)
  /-- `errorSlice` of requestor.go: `type errorSlice []error`. -/
  | errorSlice (errs : List GoError)

namespace GoError

/-- Go `strings.Join(parts, sep)`. -/
def join (sep : String) : List String → String
  | [] => ""
  | [a] => a
  | a :: b :: rest => a ++ sep ++ join sep (b :: rest)

mutual

/-- The `Error()` method; for `errorSlice` it is requestor.go lines 144-152. -/
def Error : GoError → String
  | errorString msg => msg
  | canceled => "context canceled"
  | deadlineExceeded => "context deadline exceeded"
  | external msg => msg
  | errorSlice errs => join " : " (ErrorAll errs)

/-- The loop of `errorSlice.Error` collecting `err.Error()` of every element. -/
def ErrorAll : List GoError → List String
  | [] => []
  | e :: es => Error e :: ErrorAll es
end

end GoError

/-! ## Contexts -/

/-- Time instants and durations, in nanoseconds. -/
abbrev Time := Int

/-- A `context.Context` as the package uses it: `Deadline()`, and `Done()`
together with `Err()`.

`doneAt i` is what the `i`-th `select` on `ctx.Done()` executed by the retry
loop observes: `none` when the timer case is taken, `some e` when the
`ctx.Done()` case is taken, `e` being the non-nil value `ctx.Err()` then
returns (`Canceled` or `DeadlineExceeded` for the standard contexts). -/
structure Context where
  deadline : Option Time
  doneAt : Nat → Option GoError

/-! ## retrier.go -/

/-- A probe `func() (bool, error)`: a closure over mutable state `σ`. -/
abbrev Probe (σ : Type) := σ → (Bool × Option GoError) × σ

/-- What a run of `retryUntilFalseOrError` leaves behind: the returned error,
the number of probe invocations made, the number of `select` statements
executed, and the state the probe closes over. -/
structure RetryResult (σ : Type) where
  err : Option GoError
  calls : Nat
  waits : Nat
  state : σ

/-- The `for err == nil && shouldRetry` loop of retrier.go, lines 11-20.
`fuel` bounds the number of iterations; `none` means the bound was reached
with the loop still running. -/
def retryLoop {σ : Type} (ctx : Context) (fn : Probe σ) :
    Nat → Bool → Option GoError → Nat → Nat → σ → Option (RetryResult σ)
  | fuel, shouldRetry, err, calls, waits, s =>
    if err.isNone && shouldRetry then
      match fuel with
      | 0 => none
      | fuel + 1 =>
        match ctx.doneAt waits with
        | some ctxErr =>
          some { err := some ctxErr, calls := calls, waits := waits + 1, state := s }
        | none =>
          let r := fn s
          retryLoop ctx fn fuel r.1.1 r.1.2 (calls + 1) (waits + 1) r.2
    else
      some { err := err, calls := calls, waits := waits, state := s }

/-- The function `retryUntilFalseOrError(ctx, d, fn)` of retrier.go.  The
interval `d` only feeds `time.After(d)`; which case of the `select` fires is
read from `ctx.doneAt`. -/
def retryUntilFalseOrError {σ : Type} (ctx : Context) (_d : Time) (fn : Probe σ)
    (fuel : Nat) (s : σ) : Option (RetryResult σ) :=
  let r := fn s
  retryLoop ctx fn fuel r.1.1 r.1.2 1 0 r.2

/-- The state the probe closes over after `n` invocations. -/
def probeState {σ : Type} (fn : Probe σ) (s : σ) : Nat → σ
  | 0 => s
  | n + 1 => (fn (probeState fn s n)).2

/-- What the `n`-th invocation (counting from 0) of the probe returns. -/
def probeResult {σ : Type} (fn : Probe σ) (s : σ) (n : Nat) : Bool × Option GoError :=
  (fn (probeState fn s n)).1

/-! ## requestor.go -/

/-- The body of an `http.Response`, an `io.ReadCloser`: the bytes it delivers,
the error a read ends with (nil at a clean end of the stream), and whether
`Close` was called. -/
structure Body where
  data : String
  readErr : Option GoError
  closed : Bool

/-- An `http.Header`: for a canonical key, the values recorded under it. -/
abbrev Header := String → List String

/-- The method `Header.Get` for a key in canonical form: the first value
recorded under the key, `""` when there is none. -/
def Header.Get (h : Header) (key : String) : String :=
  (h key).headD ""

/-- The fields of a non-nil `*http.Response` that the package reads. -/
structure HTTPResponse where
  StatusCode : Int
  Header : Header
  Body : Body

/-- The type `Decoder func(io.Reader) error`, a closure over state `σ`. -/
abbrev Decoder (σ : Type) := Body → σ → Option GoError × σ

/-- The type `Verifier func(*http.Response) error`, a closure over state `σ`. -/
abbrev Verifier (σ : Type) := HTTPResponse → σ → Option GoError × σ

/-- The function `JsonDecoder(v)`: `json.NewDecoder(r).Decode(v)`, where `v`
points into the state.  What encoding/json does to the target for a given
body is the parameter `unmarshal`. -/
def JsonDecoder {σ : Type} (unmarshal : Body → σ → Option GoError × σ) : Decoder σ :=
  fun r v => unmarshal r v

/-- The function `NoOpDecoder`: `io.Copy(ioutil.Discard, r)` drains the body and
returns the error the reads ended with. -/
def NoOpDecoder {σ : Type} : Decoder σ :=
  fun r s => (r.readErr, s)

/-- The function `HTTPStatusCodeVerifier(statusCode)`. -/
def HTTPStatusCodeVerifier {σ : Type} (statusCode : Int) : Verifier σ :=
  fun resp s =>
    if resp.StatusCode ≠ statusCode then
      (some (GoError.errorString
        ("Unexpected status code " ++ toString resp.StatusCode
          ++ ". Expected " ++ toString statusCode)), s)
    else
      (none, s)

/-- The constant `http.StatusOK`. -/
def StatusOK : Int := 200

/-- The constant `http.StatusCreated`. -/
def StatusCreated : Int := 201

/-- The variable `StatusOKVerifier`. -/
def StatusOKVerifier {σ : Type} : Verifier σ := HTTPStatusCodeVerifier StatusOK

/-- The struct `Response`.  `response` is a pointer: `none` is nil. -/
structure Response where
  err : Option GoError
  response : Option HTTPResponse
  isResponseBodyClosed : Bool

/-- The method `Requestor.Do`.  Its two fallible steps are inputs: `buildErr` is
the error of `rb.BuildHTTPRequest()`, `exchange` the outcome of
`http.DefaultClient.Do`. -/
def Requestor.Do (buildErr : Option GoError) (exchange : Except GoError HTTPResponse) :
    Response :=
  match buildErr with
  | some err => { err := some err, response := none, isResponseBodyClosed := false }
  | none =>
    match exchange with
    | .error err => { err := some err, response := none, isResponseBodyClosed := false }
    | .ok resp => { err := none, response := some resp, isResponseBodyClosed := false }

/-- The error of requestor.go line 117. -/
def errClosedBody : GoError :=
  GoError.errorString "cannot decode from a closed response body"

/-- The loop over the verifiers in `verifyAndDecode`, lines 124-129: every
verifier is called, in order, and the errors are appended to `errs`. -/
def runVerifiers {σ : Type} (resp : HTTPResponse) :
    List (Verifier σ) → List GoError → σ → List GoError × σ
  | [], errs, s => (errs, s)
  | verifier :: rest, errs, s =>
    match verifier resp s with
    | (some err, s1) => runVerifiers resp rest (errs ++ [err]) s1
    | (none, s1) => runVerifiers resp rest errs s1

/-- The method `Response.verifyAndDecode`.  The result is the returned error,
the response after the call and the state of the closures; `none` stands for
the nil pointer dereference the code runs into when `r.response` is nil. -/
def Response.verifyAndDecode {σ : Type} (r : Response) (decoder : Decoder σ)
    (verifiers : List (Verifier σ)) (s : σ) : Option (Option GoError × Response × σ) :=
  match r.err with
  | some err => some (some err, r, s)
  | none =>
    if r.isResponseBodyClosed then
      some (some errClosedBody, r, s)
    else
      let verifiers := if verifiers.length = 0 then verifiers ++ [StatusOKVerifier] else verifiers
      match r.response with
      | none => none
      | some resp =>
        let (errs, s1) := runVerifiers resp verifiers [] s
        let (derr, s2) := decoder resp.Body s1
        let errs := match derr with
          | some err => errs ++ [err]
          | none => errs
        let closedResp : HTTPResponse := { resp with Body := { resp.Body with closed := true } }
        if errs.length > 0 then
          some (some (GoError.errorSlice errs),
            { err := some (GoError.errorSlice errs), response := some closedResp,
              isResponseBodyClosed := true }, s2)
        else
          some (none,
            { err := none, response := some closedResp, isResponseBodyClosed := true }, s2)

/-- The method `Response.VerifyAndDecode`: `verifyAndDecode`, the error being
logged on the way out. -/
def Response.VerifyAndDecode {σ : Type} (r : Response) (decoder : Decoder σ)
    (verifiers : List (Verifier σ)) (s : σ) : Option (Option GoError × Response × σ) :=
  r.verifyAndDecode decoder verifiers s

/-- The chain `requestor.Do(ctx, rb).VerifyAndDecode(decoder, verifiers...)`:
the returned error, the response after the call and the state of the closures.
`Do` never builds a response with a nil `err` and a nil `response`, so the
call does not run into the nil pointer. -/
def Requestor.DoVerifyAndDecode {σ : Type} (buildErr : Option GoError)
    (exchange : Except GoError HTTPResponse) (decoder : Decoder σ)
    (verifiers : List (Verifier σ)) (s : σ) : Option GoError × Response × σ :=
  match h : (Requestor.Do buildErr exchange).VerifyAndDecode decoder verifiers s with
  | some out => out
  | none => False.elim (by
      cases buildErr with
      | some e => simp [Requestor.Do, Response.VerifyAndDecode, Response.verifyAndDecode] at h
      | none =>
        cases exchange with
        | error e =>
          simp [Requestor.Do, Response.VerifyAndDecode, Response.verifyAndDecode] at h
        | ok resp =>
          simp only [Requestor.Do, Response.VerifyAndDecode, Response.verifyAndDecode] at h
          simp only [← apply_ite some] at h
          simp at h)

/-- A sequence of `VerifyAndDecode` calls on one response, each with its own
decoder and verifiers: the errors returned, in order, the response and the
state after the last call. -/
def Response.verifyAndDecodeSeq {σ : Type} (r : Response) :
    List (Decoder σ × List (Verifier σ)) → σ → Option (List (Option GoError) × Response × σ)
  | [], s => some ([], r, s)
  | (decoder, verifiers) :: rest, s =>
    match r.VerifyAndDecode decoder verifiers s with
    | none => none
    | some (err, r1, s1) =>
      match Response.verifyAndDecodeSeq r1 rest s1 with
      | none => none
      | some (errs, r2, s2) => some (err :: errs, r2, s2)

/-- The errors of the verifiers that fail when each verifier of the list is
called once, in the order supplied, each in the state its predecessor left. -/
def verifierErrors {σ : Type} (resp : HTTPResponse) : List (Verifier σ) → σ → List GoError
  | [], _ => []
  | v :: vs, s => (v resp s).1.toList ++ verifierErrors resp vs (v resp s).2

/-- The state after every verifier of the list has been called once, in order. -/
def verifiersState {σ : Type} (resp : HTTPResponse) (vs : List (Verifier σ)) (s : σ) : σ :=
  vs.foldl (fun t v => (v resp t).2) s

/-- The verifiers a call of `verifyAndDecode` uses, lines 120-122: the ones
supplied, or `StatusOKVerifier` alone when none is supplied. -/
def effectiveVerifiers {σ : Type} (verifiers : List (Verifier σ)) : List (Verifier σ) :=
  if verifiers.length = 0 then verifiers ++ [StatusOKVerifier] else verifiers

/-- The errors a call of `VerifyAndDecode` is to report: those of the failing
verifiers, in the order the verifiers were supplied, followed by the error of
the decoder when the decoder failed.  The decoder runs after all verifiers. -/
def aggregatedErrors {σ : Type} (resp : HTTPResponse) (decoder : Decoder σ)
    (verifiers : List (Verifier σ)) (s : σ) : List GoError :=
  verifierErrors resp verifiers s
    ++ (decoder resp.Body (verifiersState resp verifiers s)).1.toList

/-! ## job_api.go: scheduling -/

/-- The longest run of ASCII digits at the start of the input: a greedy `\d+`
with nothing after it in the pattern (empty when the input starts otherwise). -/
def digitRun : List Char → List Char
  | [] => []
  | c :: cs => if c.isDigit then c :: digitRun cs else []

/-- The tail `/item/(\d+)` of `queueIDRegex` matched at the start of the input:
the text of the capture group, `none` when there is no match here. -/
def matchItem : List Char → Option (List Char)
  | '/' :: 'i' :: 't' :: 'e' :: 'm' :: '/' :: rest =>
    match digitRun rest with
    | [] => none
    | d :: ds => some (d :: ds)
  | _ => none

/-- The pattern `.*/item/(\d+)` matched at the start of the input.  The greedy
`.*` first tries to take one more character (any but a line feed) and falls
back to matching the tail where it stands. -/
def matchQueueIDRegex : List Char → Option (List Char)
  | [] => matchItem []
  | c :: cs =>
    if c ≠ Char.ofNat 10 then
      match matchQueueIDRegex cs with
      | some capture => some capture
      | none => matchItem (c :: cs)
    else
      matchItem (c :: cs)

/-- The leftmost match of `queueIDRegex` in the input, as `FindStringSubmatch`
finds it: the first start position at which the pattern matches. -/
def findQueueIDRegex : List Char → Option (List Char)
  | [] => matchQueueIDRegex []
  | c :: cs =>
    match matchQueueIDRegex (c :: cs) with
    | some capture => some capture
    | none => findQueueIDRegex cs

/-- The call `queueIDRegex.FindStringSubmatch(s)`: `none` for a nil result,
otherwise the element `submatch[1]`. -/
def FindStringSubmatch (s : String) : Option String :=
  (findQueueIDRegex s.toList).map String.mk

/-- The digit loop of `strconv.ParseUint` for base 10: `maxVal` is
`1<<bitSize - 1`, the accumulator is a `uint64`. -/
def parseUintLoop (maxVal : Nat) : List Char → Nat → Nat × Option GoError
  | [], n => (n, none)
  | c :: cs, n =>
    if c.isDigit then
      if n ≥ (2 ^ 64 - 1) / 10 + 1 then
        (maxVal, some (GoError.external "value out of range"))
      else
        let n10 := n * 10
        let n1 := (n10 + (c.toNat - 48)) % 2 ^ 64
        if n1 < n10 ∨ n1 > maxVal then
          (maxVal, some (GoError.external "value out of range"))
        else
          parseUintLoop maxVal cs n1
    else
      (0, some (GoError.external "invalid syntax"))

/-- The call `strconv.ParseUint(s, 10, bitSize)`. -/
def ParseUint (s : String) (bitSize : Nat) : Nat × Option GoError :=
  if s = "" then
    (0, some (GoError.external "invalid syntax"))
  else
    parseUintLoop (2 ^ bitSize - 1) s.toList 0

/-- The closure `queueIDFromLocation` of `ScheduleBuild`; the state is the
captured variable `queueID`. -/
def queueIDFromLocation : Verifier Nat :=
  fun resp queueID =>
    match FindStringSubmatch (resp.Header.Get "Location") with
    | none => (some (GoError.errorString "failed to parse queueID"), queueID)
    | some submatch => (none, (ParseUint submatch 32).1)

/-- The method `jobAPI.ScheduleBuild`, from the outcome of the request on:
the returned `QueueID` (a `uint32`) and error. -/
def ScheduleBuild (buildErr : Option GoError) (exchange : Except GoError HTTPResponse) :
    Nat × Option GoError :=
  match Requestor.DoVerifyAndDecode buildErr exchange NoOpDecoder
      [HTTPStatusCodeVerifier StatusCreated, queueIDFromLocation] 0 with
  | (some _, _, _) => (0, none)
  | (none, _, queueID) => (queueID % 2 ^ 32, none)

/-! ## jenkins_api.go -/

/-- The call `context.WithDeadline(parent, d)` of the standard library.  When
the parent ends earlier than `d` the child is `WithCancel(parent)`: it keeps
the deadline of the parent and is done when the parent is.  Otherwise the
child has the deadline `d`, and `childDone d` is what the `Done()` and `Err()`
of a child with that deadline do at each `select` (the environment decides it:
the deadline passing, the parent being cancelled). -/
def WithDeadline (parent : Context) (d : Time) (childDone : Time → Nat → Option GoError) :
    Context :=
  match parent.deadline with
  | some cur =>
    if cur < d then { deadline := some cur, doneAt := parent.doneAt }
    else { deadline := some d, doneAt := childDone d }
  | none => { deadline := some d, doneAt := childDone d }

/-- The call `context.WithTimeout(parent, timeout)` made when the clock reads
`now`: `WithDeadline(parent, time.Now().Add(timeout))`. -/
def WithTimeout (parent : Context) (timeout : Time) (now : Time)
    (childDone : Time → Nat → Option GoError) : Context :=
  WithDeadline parent (now + timeout) childDone

/-- The function `setTimeoutIfNotSet(ctx, timeout)`, the returned context.  The
returned cancel function is only called when the caller returns. -/
def setTimeoutIfNotSet (ctx : Context) (timeout : Time) (now : Time)
    (childDone : Time → Nat → Option GoError) : Context :=
  match ctx.deadline with
  | none => WithTimeout ctx timeout now childDone
  | some _ => ctx

/-- The `Done()` and `Err()` of a context that is never cancelled and ends by
its deadline `dl`, seen from the retry loop: `clock i` is the instant at which
the `select` numbered `i` returns, and that `select` takes the `ctx.Done()`
case, `ctx.Err()` being `DeadlineExceeded`, exactly when the deadline has
passed by then. -/
def deadlineDone (clock : Nat → Time) (dl : Time) : Nat → Option GoError :=
  fun i => if dl ≤ clock i then some GoError.deadlineExceeded else none

/-- The constant `time.Minute`, in nanoseconds. -/
def Minute : Time := 60 * 1000000000

/-- The constant `DefaultWaitForBuildToBeQueuedTimeout` of queue_api.go. -/
def DefaultWaitForBuildToBeQueuedTimeout : Time := 1 * Minute

/-- The constant `DefaultWaitForBuildToBeCompletedTimeout` of job_api.go. -/
def DefaultWaitForBuildToBeCompletedTimeout : Time := 25 * Minute

/-! ## queue_api.go -/

/-- The struct `QueueItem`, which is also the type of the field `Executable`
of the variable `queueItem` in `WaitUntilBuildIsQueued`. -/
structure QueueItem where
  Number : Nat
  URL : String

/-- What the closure passed to the retry engine by `WaitUntilBuildIsQueued`
works on: the captured variable `queueItem.Executable` and the number of
requests sent so far. -/
structure QueueWaitState where
  Executable : QueueItem
  requests : Nat

/-- The closure `func() (bool, error)` of `WaitUntilBuildIsQueued`.  `server i`
is the outcome of the HTTP exchange of the request numbered `i`, `unmarshal`
what encoding/json does to `queueItem.Executable` for a given body. -/
def queuedProbe (unmarshal : Body → QueueItem → Option GoError × QueueItem)
    (buildErr : Option GoError) (server : Nat → Except GoError HTTPResponse) :
    Probe QueueWaitState :=
  fun st =>
    let out := Requestor.DoVerifyAndDecode buildErr (server st.requests)
      (JsonDecoder unmarshal) [] st.Executable
    ((out.2.2.Number == 0, out.1), { Executable := out.2.2, requests := st.requests + 1 })

/-- What a wait returns, next to the number of probe invocations it made. -/
structure WaitResult (α : Type) where
  value : α
  err : Option GoError
  calls : Nat

/-- The method `queueAPI.WaitUntilBuildIsQueued`.  `none` means that the bound
`fuel` on the iterations of the retry loop was reached. -/
def WaitUntilBuildIsQueued (ctx : Context) (retryAfter : Time) (now : Time)
    (childDone : Time → Nat → Option GoError)
    (unmarshal : Body → QueueItem → Option GoError × QueueItem)
    (buildErr : Option GoError) (server : Nat → Except GoError HTTPResponse)
    (fuel : Nat) : Option (WaitResult QueueItem) :=
  let ctx := setTimeoutIfNotSet ctx DefaultWaitForBuildToBeQueuedTimeout now childDone
  match retryUntilFalseOrError ctx retryAfter (queuedProbe unmarshal buildErr server) fuel
      { Executable := { Number := 0, URL := "" }, requests := 0 } with
  | none => none
  | some r => some { value := r.state.Executable, err := r.err, calls := r.calls }

/-! ## job_api.go: waiting for a build -/

/-- The struct `BuildInfo`. -/
structure BuildInfo where
  Number : Nat
  QueueID : Nat
  URL : String
  Result : String
  Building : Bool

/-- The zero value of `BuildInfo`. -/
def BuildInfo.zero : BuildInfo :=
  { Number := 0, QueueID := 0, URL := "", Result := "", Building := false }

/-- The method `jobAPI.BuildInfo`, from the outcome of the request on. -/
def jobAPI.BuildInfo (unmarshal : Body → BuildInfo → Option GoError × BuildInfo)
    (buildErr : Option GoError) (exchange : Except GoError HTTPResponse) :
    BuildInfo × Option GoError :=
  let out := Requestor.DoVerifyAndDecode buildErr exchange
    (JsonDecoder unmarshal) [] BuildInfo.zero
  (out.2.2, out.1)

/-- What the closure passed to the retry engine by `WaitUntilBuildIsComplete`
works on: the captured variable `buildInfo` and the number of requests sent. -/
structure BuildWaitState where
  buildInfo : BuildInfo
  requests : Nat

/-- The closure `func() (bool, error)` of `WaitUntilBuildIsComplete`. -/
def buildProbe (unmarshal : Body → BuildInfo → Option GoError × BuildInfo)
    (buildErr : Option GoError) (server : Nat → Except GoError HTTPResponse) :
    Probe BuildWaitState :=
  fun st =>
    let out := jobAPI.BuildInfo unmarshal buildErr (server st.requests)
    ((out.1.Building, out.2), { buildInfo := out.1, requests := st.requests + 1 })

/-- The method `jobAPI.WaitUntilBuildIsComplete`.  `none` means that the bound
`fuel` on the iterations of the retry loop was reached. -/
def WaitUntilBuildIsComplete (ctx : Context) (retryAfter : Time) (now : Time)
    (childDone : Time → Nat → Option GoError)
    (unmarshal : Body → BuildInfo → Option GoError × BuildInfo)
    (buildErr : Option GoError) (server : Nat → Except GoError HTTPResponse)
    (fuel : Nat) : Option (WaitResult BuildInfo) :=
  let ctx := setTimeoutIfNotSet ctx DefaultWaitForBuildToBeCompletedTimeout now childDone
  match retryUntilFalseOrError ctx retryAfter (buildProbe unmarshal buildErr server) fuel
      { buildInfo := BuildInfo.zero, requests := 0 } with
  | none => none
  | some r => some { value := r.state.buildInfo, err := r.err, calls := r.calls }

/-! ## Sample inputs -/

/-- A probe that answers from a script, one entry per invocation, and `dflt`
once the script is used up; its state is the number of invocations so far
(compare `multiFunc` of retrier_test.go). -/
def scriptedProbe (script : List (Bool × Option GoError)) (dflt : Bool × Option GoError) :
    Probe Nat :=
  fun count => (script.getD count dflt, count + 1)

/-- A context without deadline that is never done, like `context.Background()`. -/
def backgroundCtx : Context := { deadline := none, doneAt := fun _ => none }

/-- A context whose `Done()` case is first taken at the `select` numbered `n`,
`Err()` being `e` from then on. -/
def doneFromCtx (dl : Option Time) (n : Nat) (e : GoError) : Context :=
  { deadline := dl, doneAt := fun i => if n ≤ i then some e else none }

/-- The error `errRetry` of retrier_test.go. -/
def errRetry : GoError := GoError.errorString "retry true with error"

/-- A response received with status 500 whose body breaks off while being read. -/
def brokenResponse : Response :=
  { err := none,
    response := some
      { StatusCode := 500, Header := fun _ => [],
        Body := { data := "", readErr := some (GoError.external "unexpected EOF"),
                  closed := false } },
    isResponseBodyClosed := false }

/-- The aggregated error of `brokenResponse` under the verifiers "status 200"
and "status 201" and a decoder that reads the body to its end. -/
def brokenResponseErrors : List GoError :=
  [ GoError.errorString "Unexpected status code 500. Expected 200",
    GoError.errorString "Unexpected status code 500. Expected 201",
    GoError.external "unexpected EOF" ]

/-- The response `brokenResponse` after a first `VerifyAndDecode` call with the
default verifier: the aggregated error is stored in `err`, the body is closed. -/
def brokenResponseConsumed : Response :=
  { err := some (GoError.errorSlice
      [ GoError.errorString "Unexpected status code 500. Expected 200",
        GoError.external "unexpected EOF" ]),
    response := some
      { StatusCode := 500, Header := fun _ => [],
        Body := { data := "", readErr := some (GoError.external "unexpected EOF"),
                  closed := true } },
    isResponseBodyClosed := true }

/-- A response received with status 200 and a body that reads to its end. -/
def okResponse : Response :=
  { err := none,
    response := some
      { StatusCode := 200, Header := fun _ => [],
        Body := { data := "", readErr := none, closed := false } },
    isResponseBodyClosed := false }

/-- The response `okResponse` after a first, successful `VerifyAndDecode` call. -/
def okResponseConsumed : Response :=
  { err := none,
    response := some
      { StatusCode := 200, Header := fun _ => [],
        Body := { data := "", readErr := none, closed := true } },
    isResponseBodyClosed := true }

/-- A "201 Created" answer that carries no Location header. -/
def createdWithoutLocation : HTTPResponse :=
  { StatusCode := 201, Header := fun _ => [],
    Body := { data := "", readErr := none, closed := false } }

/-- The answer of the server in `TestJobApi_ScheduleBuild`. -/
def createdWithLocation : HTTPResponse :=
  { StatusCode := 201,
    Header := fun key => if key = "Location" then ["http://testurl.com/queue/item/3"] else [],
    Body := { data := "", readErr := none, closed := false } }

/-- A stand-in for encoding/json on the bodies of queue_api_test.go: the body
`{}` leaves the variable as it is, the body standing for the test's
`queueItemWithExecutable` sets build number 2 and the build's URL, and
anything else fails. -/
def unmarshalQueueItemSample : Body → QueueItem → Option GoError × QueueItem :=
  fun body q =>
    if body.data = "\x7b\x7d" then (none, q)
    else if body.data = "queueItemWithExecutable" then
      (none, { Number := 2, URL := "http://testurl.com/jenkins/job/test-job-1/2/" })
    else (some (GoError.external "EOF"), q)

/-- The server of the test "should retry until jenkins queue api returns a
response with build nubmer": first `{}`, then the item with an executable. -/
def queueServerSample : Nat → Except GoError HTTPResponse :=
  fun i =>
    if i = 0 then
      Except.ok { StatusCode := 200, Header := fun _ => [],
                  Body := { data := "\x7b\x7d", readErr := none, closed := false } }
    else
      Except.ok { StatusCode := 200, Header := fun _ => [],
                  Body := { data := "queueItemWithExecutable", readErr := none,
                            closed := false } }

/-- A stand-in for encoding/json on the bodies of job_api_test.go: the body
standing for `buildInProgressResponse` and the one for `buildCompleteResponse`
differ in the flag `building`; anything else fails. -/
def unmarshalBuildInfoSample : Body → BuildInfo → Option GoError × BuildInfo :=
  fun body b =>
    if body.data = "buildInProgressResponse" then
      (none, { Number := 2, QueueID := 3, URL := "http://testurl.com/jenkins/job/Test/2",
               Result := "SUCCESS", Building := true })
    else if body.data = "buildCompleteResponse" then
      (none, { Number := 2, QueueID := 3, URL := "http://testurl.com/jenkins/job/Test/2",
               Result := "SUCCESS", Building := false })
    else (some (GoError.external "EOF"), b)

/-- The server of `TestJobApi_WaitUntilBuildIsComplete_TimesoutCorrectly`: the
build is in progress at every request. -/
def buildingServerSample : Nat → Except GoError HTTPResponse :=
  fun _ =>
    Except.ok { StatusCode := 200, Header := fun _ => [],
                Body := { data := "buildInProgressResponse", readErr := none,
                          closed := false } }

/-- A server that answers `{}` once and is unreachable afterwards. -/
def unreachableServerSample : Nat → Except GoError HTTPResponse :=
  fun i =>
    if i = 0 then
      Except.ok { StatusCode := 200, Header := fun _ => [],
                  Body := { data := "\x7b\x7d", readErr := none, closed := false } }
    else
      Except.error (GoError.external "dial tcp: connection refused")

/-- The error `HTTPStatusCodeVerifier(http.StatusOK)` returns for the status
code `actual`. -/
def unexpectedStatusOK (actual : Int) : GoError :=
  GoError.errorString ("Unexpected status code " ++ toString actual ++ ". Expected 200")

/-! ## Counting the applications of the decoder -/

/-- A decoder together with a counter of its applications: it does what
`decoder` does and adds one to the counter kept next to the state. -/
def countingDecoder {σ : Type} (decoder : Decoder σ) : Decoder (σ × Nat) :=
  fun body st => ((decoder body st.1).1, ((decoder body st.1).2, st.2 + 1))

/-- A verifier run next to the counter of decoder applications, which it
leaves alone. -/
def liftVerifier {σ : Type} (verifier : Verifier σ) : Verifier (σ × Nat) :=
  fun resp st => ((verifier resp st.1).1, ((verifier resp st.1).2, st.2))

/-- The arguments of one `VerifyAndDecode` call, the decoder counting. -/
def countingCall {σ : Type} (call : Decoder σ × List (Verifier σ)) :
    Decoder (σ × Nat) × List (Verifier (σ × Nat)) :=
  (countingDecoder call.1, call.2.map liftVerifier)

/-- Whether `verifyAndDecode` returns before it reaches the verifiers: the
response carries an error or its body counts as closed (lines 112-118). -/
def Response.refuses (r : Response) : Bool :=
  r.err.isSome || r.isResponseBodyClosed

/-! ## The value of a decimal numeral -/

/-- The number a string of decimal digits denotes, read from the left. -/
def decimalValue (digits : List Char) : Nat :=
  digits.foldl (fun n c => n * 10 + (c.toNat - 48)) 0

/-- The characters of the text `/item/`. -/
def itemMarker : List Char := ['/', 'i', 't', 'e', 'm', '/']

/-- A "201 Created" answer whose Location header is `location` and whose body
ends with the read error `readErr`. -/
def createdAt (location : String) (readErr : Option GoError) : HTTPResponse :=
  { StatusCode := 201,
    Header := fun key => if key = "Location" then [location] else [],
    Body := { data := "", readErr := readErr, closed := false } }

/-- A clock for the `select`s of a wait: the `select` numbered `i` returns
`(i + 1)` times ten seconds after the start. -/
def tenSecondClock : Nat → Time := fun i => (i + 1) * 10000000000

/-- A clock for the `select`s of a wait: the `select` numbered `i` returns
`(i + 1)` times five minutes after the start. -/
def fiveMinuteClock : Nat → Time := fun i => (i + 1) * 300000000000

/-- A server that answers `{}` to every request for the queue item: the item
never gets a build number. -/
def waitingQueueServerSample : Nat → Except GoError HTTPResponse :=
  fun _ =>
    Except.ok { StatusCode := 200, Header := fun _ => [],
                Body := { data := "\x7b\x7d", readErr := none, closed := false } }

/-- A clock for the `select`s of a wait: the `select` numbered `i` returns
`(i + 1)` milliseconds after the start. -/
def oneMillisecondClock : Nat → Time := fun i => (i + 1) * 1000000

/-- A context that is never cancelled and ends by its deadline `dl`, as
`context.WithTimeout(context.Background(), ...)` makes it. -/
def deadlineCtx (clock : Nat → Time) (dl : Time) : Context :=
  { deadline := some dl, doneAt := deadlineDone clock dl }

/-- A server that is not reached: every request is refused on account of the
cancelled context it is sent with. -/
def refusedRequestServerSample : Nat → Except GoError HTTPResponse :=
  fun _ =>
    Except.error
      (GoError.external "Get http://testurl.com/job/Test/1/api/json: context canceled")

/-! ## Lemmas on the retry loop -/

theorem retryLoop_stop {σ : Type} (ctx : Context) (fn : Probe σ) (fuel : Nat)
    (shouldRetry : Bool) (err : Option GoError) (calls waits : Nat) (s : σ)
    (h : (err.isNone && shouldRetry) = false) :
    retryLoop ctx fn fuel shouldRetry err calls waits s
      = some { err := err, calls := calls, waits := waits, state := s } := by
  cases fuel <;> simp [retryLoop, h]

theorem retryLoop_ctxDone {σ : Type} (ctx : Context) (fn : Probe σ) (fuel : Nat)
    (calls waits : Nat) (s : σ) (e : GoError) (h : ctx.doneAt waits = some e) :
    retryLoop ctx fn (fuel + 1) true none calls waits s
      = some { err := some e, calls := calls, waits := waits + 1, state := s } := by
  simp [retryLoop, h]

theorem retryLoop_timer {σ : Type} (ctx : Context) (fn : Probe σ) (fuel : Nat)
    (calls waits : Nat) (s : σ) (h : ctx.doneAt waits = none) :
    retryLoop ctx fn (fuel + 1) true none calls waits s
      = retryLoop ctx fn fuel (fn s).1.1 (fn s).1.2 (calls + 1) (waits + 1) (fn s).2 := by
  simp [retryLoop, h]

/-- While the probe keeps answering `(true, nil)` and the timer keeps winning
the `select`, the loop advances one invocation per unit of fuel. -/
theorem retryLoop_advance {σ : Type} (ctx : Context) (fn : Probe σ) (s : σ) (m : Nat) :
    ∀ (c fuel : Nat),
      (∀ j, c ≤ j → j < c + m → probeResult fn s j = (true, none) ∧ ctx.doneAt j = none) →
      retryLoop ctx fn (fuel + m) (probeResult fn s c).1 (probeResult fn s c).2
          (c + 1) c (probeState fn s (c + 1))
        = retryLoop ctx fn fuel (probeResult fn s (c + m)).1 (probeResult fn s (c + m)).2
          (c + m + 1) (c + m) (probeState fn s (c + m + 1)) := by
  induction m with
  | zero => intro c fuel _; rfl
  | succ m ih =>
    intro c fuel h
    have hc := h c (Nat.le_refl c) (by omega)
    have hstep : retryLoop ctx fn (fuel + (m + 1)) (probeResult fn s c).1 (probeResult fn s c).2
          (c + 1) c (probeState fn s (c + 1))
        = retryLoop ctx fn (fuel + m) (probeResult fn s (c + 1)).1 (probeResult fn s (c + 1)).2
          (c + 1 + 1) (c + 1) (probeState fn s (c + 1 + 1)) := by
      rw [hc.1, ← Nat.add_assoc]
      exact retryLoop_timer ctx fn (fuel + m) (c + 1) c _ hc.2
    rw [hstep, ih (c + 1) fuel (fun j h1 h2 => h j (by omega) (by omega))]
    have e1 : c + 1 + m = c + (m + 1) := by omega
    rw [e1]

/-- A run of `retryUntilFalseOrError` in which the first `k` invocations answer
`(true, nil)` and the first `k` waits end by the timer reaches the invocation
numbered `k` (counting from 0) and continues from there. -/
theorem retryUntilFalseOrError_advance {σ : Type} (ctx : Context) (d : Time) (fn : Probe σ)
    (s : σ) (k fuel : Nat)
    (h : ∀ j, j < k → probeResult fn s j = (true, none) ∧ ctx.doneAt j = none) :
    retryUntilFalseOrError ctx d fn (fuel + k) s
      = retryLoop ctx fn fuel (probeResult fn s k).1 (probeResult fn s k).2
          (k + 1) k (probeState fn s (k + 1)) := by
  have := retryLoop_advance ctx fn s k 0 fuel (fun j _ h2 => h j (by omega))
  simpa [retryUntilFalseOrError, probeResult, probeState] using this

/-- A loop that is still retrying can only end through the `ctx.Done()` case
when the probe never stops asking for a retry. -/
theorem retryLoop_always_retry {σ : Type} (ctx : Context) (fn : Probe σ)
    (hfn : ∀ s, (fn s).1 = (true, none)) :
    ∀ (fuel c w : Nat) (s : σ) (r : RetryResult σ),
      retryLoop ctx fn fuel true none c w s = some r →
      c ≤ r.calls ∧ ∃ i e, ctx.doneAt i = some e ∧ r.err = some e := by
  intro fuel
  induction fuel with
  | zero => intro c w s r h; simp [retryLoop] at h
  | succ fuel ih =>
    intro c w s r h
    cases hd : ctx.doneAt w with
    | some e =>
      rw [retryLoop_ctxDone ctx fn fuel c w s e hd] at h
      cases h
      exact ⟨Nat.le_refl _, w, e, hd, rfl⟩
    | none =>
      rw [retryLoop_timer ctx fn fuel c w s hd, hfn s] at h
      have := ih (c + 1) (w + 1) _ r h
      exact ⟨by omega, this.2⟩

/-- A run that reaches the invocation numbered `n` (counting from 0) and gets
a non-nil error from it stops there with that error. -/
theorem retry_stops_on_probe_error {σ : Type} (ctx : Context) (d : Time)
    (fn : Probe σ) (s : σ) (n : Nat) (e : GoError)
    (hreach : ∀ j, j < n → probeResult fn s j = (true, none) ∧ ctx.doneAt j = none)
    (herr : (probeResult fn s n).2 = some e)
    (fuel : Nat) (hfuel : n ≤ fuel) :
    retryUntilFalseOrError ctx d fn fuel s
      = some { err := some e, calls := n + 1, waits := n, state := probeState fn s (n + 1) } := by
  obtain ⟨f, rfl⟩ : ∃ f, fuel = f + n := ⟨fuel - n, by omega⟩
  rw [retryUntilFalseOrError_advance ctx d fn s n f hreach, herr]
  exact retryLoop_stop ctx fn f _ (some e) (n + 1) n _ (by simp)

/-! ## The retry engine: claims -/

/-- C1: when the invocation numbered `n + 1` of the probe is reached (the `n`
earlier ones answered `(true, nil)` and the `n` waits before it ended by the
timer) and returns a non-nil error `e`, with whatever boolean `b`, then
`retryUntilFalseOrError` returns exactly `e` after exactly `n + 1` invocations
and `n` waits. -/
theorem retryUntilFalseOrError_probe_error {σ : Type} (ctx : Context) (d : Time)
    (fn : Probe σ) (s : σ) (n : Nat) (b : Bool) (e : GoError)
    (hreach : ∀ j, j < n → probeResult fn s j = (true, none) ∧ ctx.doneAt j = none)
    (herr : probeResult fn s n = (b, some e))
    (fuel : Nat) (hfuel : n ≤ fuel) :
    retryUntilFalseOrError ctx d fn fuel s
      = some { err := some e, calls := n + 1, waits := n, state := probeState fn s (n + 1) } := by
  exact retry_stops_on_probe_error ctx d fn s n e hreach
    (by rw [herr]) fuel hfuel

/-- C1, at the test's case "Error on retry should return immediately", here with
the boolean `true` next to the error: the second invocation fails and ends the
run with two invocations. -/
theorem retryUntilFalseOrError_probe_error_witness :
    retryUntilFalseOrError backgroundCtx 0
        (scriptedProbe [(true, none), (true, some errRetry)] (false, none)) 1 0
      = some { err := some errRetry, calls := 2, waits := 1, state := 2 } :=
  retryUntilFalseOrError_probe_error backgroundCtx 0
    (scriptedProbe [(true, none), (true, some errRetry)] (false, none)) 0 1 true errRetry
    (by intro j hj; interval_cases j; exact ⟨rfl, rfl⟩) rfl 1 (Nat.le_refl 1)

/-- C2: a probe that answers `(true, nil)` on every call never makes
`retryUntilFalseOrError` return nil.  Whenever the run returns, the probe was
invoked at least once and the result is a non-nil error that the context
reported at some `select`; and when the `ctx.Done()` case is first taken at the
`select` numbered `n`, with `ctx.Err()` being `e`, the run does return `e`,
after `n + 1` invocations. -/
theorem retryUntilFalseOrError_always_waiting {σ : Type} (ctx : Context) (d : Time)
    (fn : Probe σ) (s : σ) (hfn : ∀ t, (fn t).1 = (true, none)) :
    (∀ fuel r, retryUntilFalseOrError ctx d fn fuel s = some r →
        1 ≤ r.calls ∧ r.err ≠ none ∧ ∃ i e, ctx.doneAt i = some e ∧ r.err = some e) ∧
    (∀ n e, (∀ j, j < n → ctx.doneAt j = none) → ctx.doneAt n = some e →
        ∀ fuel, n < fuel →
          retryUntilFalseOrError ctx d fn fuel s
            = some { err := some e, calls := n + 1, waits := n + 1,
                     state := probeState fn s (n + 1) }) := by
  constructor
  · intro fuel r h
    simp only [retryUntilFalseOrError, hfn s] at h
    obtain ⟨h1, i, e, h2, h3⟩ := retryLoop_always_retry ctx fn hfn fuel 1 0 _ r h
    exact ⟨h1, by simp [h3], i, e, h2, h3⟩
  · intro n e hnone hdone fuel hfuel
    obtain ⟨f, rfl⟩ : ∃ f, fuel = (f + 1) + n := ⟨fuel - n - 1, by omega⟩
    rw [retryUntilFalseOrError_advance ctx d fn s n (f + 1)
      (fun j hj => ⟨hfn _, hnone j hj⟩)]
    have hn : probeResult fn s n = (true, none) := hfn _
    rw [hn]
    exact retryLoop_ctxDone ctx fn f (n + 1) n _ e hdone

/-- C2, at the test's case "Deadline exceeded should not retry": the probe asks
for a retry forever, the deadline fires during the first wait, and the run
returns `context.DeadlineExceeded` after one invocation. -/
theorem retryUntilFalseOrError_always_waiting_witness :
    retryUntilFalseOrError (doneFromCtx (some 1) 0 GoError.deadlineExceeded) 3600000000000
        (scriptedProbe [] (true, none)) 1 0
      = some { err := some GoError.deadlineExceeded, calls := 1, waits := 1, state := 1 } :=
  (retryUntilFalseOrError_always_waiting (doneFromCtx (some 1) 0 GoError.deadlineExceeded)
    3600000000000 (scriptedProbe [] (true, none)) 0 (fun _ => rfl)).2
    0 GoError.deadlineExceeded (by intro j hj; omega) rfl 1 (by decide)

/-- C3: when the probe answers `(true, nil)` on its first `n` calls and
`(false, nil)` on the call numbered `n + 1`, and the `n` waits in between end by
the timer, `retryUntilFalseOrError` returns nil after exactly `n + 1`
invocations.  For `n = 0` it returns nil after one invocation and no wait,
for every context, every retry interval and every bound on the iterations. -/
theorem retryUntilFalseOrError_done {σ : Type} (ctx : Context) (d : Time)
    (fn : Probe σ) (s : σ) (n : Nat)
    (hreach : ∀ j, j < n → probeResult fn s j = (true, none) ∧ ctx.doneAt j = none)
    (hdone : probeResult fn s n = (false, none)) :
    (∀ fuel, n ≤ fuel →
      retryUntilFalseOrError ctx d fn fuel s
        = some { err := none, calls := n + 1, waits := n,
                 state := probeState fn s (n + 1) }) ∧
    (n = 0 → ∀ (ctx1 : Context) (d1 : Time) (fuel : Nat),
      retryUntilFalseOrError ctx1 d1 fn fuel s
        = some { err := none, calls := 1, waits := 0, state := (fn s).2 }) := by
  constructor
  · intro fuel hfuel
    obtain ⟨f, rfl⟩ : ∃ f, fuel = f + n := ⟨fuel - n, by omega⟩
    rw [retryUntilFalseOrError_advance ctx d fn s n f hreach, hdone]
    exact retryLoop_stop ctx fn f false none (n + 1) n _ (by simp)
  · intro hn ctx1 d1 fuel
    subst hn
    have h0 : (fn s).1 = (false, none) := hdone
    simp only [retryUntilFalseOrError, h0]
    exact retryLoop_stop ctx1 fn fuel false none 1 0 _ (by simp)

/-- C3, at the test's case "Successful retry should return immediately": one
retry answer, then done; two invocations and a nil error. -/
theorem retryUntilFalseOrError_done_witness :
    retryUntilFalseOrError backgroundCtx 0
        (scriptedProbe [(true, none), (false, none)] (true, none)) 1 0
      = some { err := none, calls := 2, waits := 1, state := 2 } :=
  (retryUntilFalseOrError_done backgroundCtx 0
    (scriptedProbe [(true, none), (false, none)] (true, none)) 0 1
    (by intro j hj; interval_cases j; exact ⟨rfl, rfl⟩) rfl).1 1 (Nat.le_refl 1)

/-! ## The verification pipeline: lemmas -/

theorem ErrorAll_eq_map (errs : List GoError) :
    GoError.ErrorAll errs = errs.map GoError.Error := by
  induction errs with
  | nil => rfl
  | cons e es ih => simp [GoError.ErrorAll, ih]

theorem errorSlice_Error (errs : List GoError) :
    (GoError.errorSlice errs).Error = GoError.join " : " (errs.map GoError.Error) := by
  rw [GoError.Error, ErrorAll_eq_map]

theorem runVerifiers_eq {σ : Type} (resp : HTTPResponse) (vs : List (Verifier σ)) :
    ∀ (errs : List GoError) (s : σ),
      runVerifiers resp vs errs s
        = (errs ++ verifierErrors resp vs s, verifiersState resp vs s) := by
  induction vs with
  | nil => intro errs s; simp [runVerifiers, verifierErrors, verifiersState]
  | cons v vs ih =>
    intro errs s
    rcases hv : v resp s with ⟨e, s1⟩
    cases e with
    | none =>
      simp only [runVerifiers, hv, ih, verifierErrors, verifiersState, List.foldl_cons,
        Option.toList, List.nil_append]
    | some err =>
      simp only [runVerifiers, hv, ih, verifierErrors, verifiersState, List.foldl_cons,
        Option.toList, List.append_assoc, List.singleton_append]

/-- The value `VerifyAndDecode` computes on a response without transport error
whose body is still open. -/
theorem verifyAndDecode_open {σ : Type} (r : Response) (resp : HTTPResponse)
    (decoder : Decoder σ) (verifiers : List (Verifier σ)) (s : σ)
    (herr : r.err = none) (hopen : r.isResponseBodyClosed = false)
    (hresp : r.response = some resp) :
    r.VerifyAndDecode decoder verifiers s
      = some (
          (match aggregatedErrors resp decoder (effectiveVerifiers verifiers) s with
            | [] => none
            | e :: es => some (GoError.errorSlice (e :: es))),
          { err := (match aggregatedErrors resp decoder (effectiveVerifiers verifiers) s with
              | [] => none
              | e :: es => some (GoError.errorSlice (e :: es))),
            response := some { resp with Body := { resp.Body with closed := true } },
            isResponseBodyClosed := true },
          (decoder resp.Body (verifiersState resp (effectiveVerifiers verifiers) s)).2) := by
  rcases hd : decoder resp.Body (verifiersState resp (effectiveVerifiers verifiers) s)
    with ⟨derr, s2⟩
  simp only [Response.VerifyAndDecode, Response.verifyAndDecode, herr, hopen, hresp,
    runVerifiers_eq, List.nil_append, aggregatedErrors, Bool.false_eq_true, if_false]
  simp only [effectiveVerifiers] at hd ⊢
  simp only [hd]
  cases derr with
  | none =>
    cases hv : verifierErrors resp
        (if verifiers.length = 0 then verifiers ++ [StatusOKVerifier] else verifiers) s with
    | nil => simp
    | cons e es => simp
  | some err =>
    cases hv : verifierErrors resp
        (if verifiers.length = 0 then verifiers ++ [StatusOKVerifier] else verifiers) s with
    | nil => simp
    | cons e es => simp

theorem effectiveVerifiers_of_ne_nil {σ : Type} (verifiers : List (Verifier σ))
    (hne : verifiers ≠ []) : effectiveVerifiers verifiers = verifiers := by
  unfold effectiveVerifiers
  rw [if_neg]
  intro h
  exact hne (List.length_eq_zero.mp h)

/-- A response that carries an error returns it from every call, unchanged. -/
theorem verifyAndDecode_of_err {σ : Type} (r : Response) (e : GoError)
    (decoder : Decoder σ) (verifiers : List (Verifier σ)) (s : σ) (herr : r.err = some e) :
    r.VerifyAndDecode decoder verifiers s = some (some e, r, s) := by
  simp [Response.VerifyAndDecode, Response.verifyAndDecode, herr]

/-- A response without error whose body was consumed refuses every call. -/
theorem verifyAndDecode_of_closed {σ : Type} (r : Response)
    (decoder : Decoder σ) (verifiers : List (Verifier σ)) (s : σ)
    (herr : r.err = none) (hclosed : r.isResponseBodyClosed = true) :
    r.VerifyAndDecode decoder verifiers s = some (some errClosedBody, r, s) := by
  simp [Response.VerifyAndDecode, Response.verifyAndDecode, herr, hclosed]

/-- Calls that return the same error and leave response and state alone do so
in any number. -/
theorem verifyAndDecodeSeq_fixed {σ : Type} (r : Response) (s : σ) (x : Option GoError)
    (hfix : ∀ (decoder : Decoder σ) (verifiers : List (Verifier σ)),
      r.VerifyAndDecode decoder verifiers s = some (x, r, s))
    (calls : List (Decoder σ × List (Verifier σ))) :
    r.verifyAndDecodeSeq calls s = some (List.replicate calls.length x, r, s) := by
  induction calls with
  | nil => rfl
  | cons c cs ih =>
    obtain ⟨decoder, verifiers⟩ := c
    simp [Response.verifyAndDecodeSeq, hfix decoder verifiers, ih, List.replicate_succ]

/-! ## The verification pipeline: claims -/

/-- C4: on a response without transport error whose body has not been consumed,
`VerifyAndDecode` with a non-empty list of verifiers calls every verifier in
order and then the decoder (the decoder runs in the state the last verifier
left, whatever the verifiers returned).  It returns nil exactly when no
verifier and not the decoder failed; otherwise it returns the `errorSlice` of
the failing verifiers' errors in order followed by the decoder's error, whose
message is the elements' messages joined by `" : "`. -/
theorem VerifyAndDecode_aggregates {σ : Type} (r : Response) (resp : HTTPResponse)
    (decoder : Decoder σ) (verifiers : List (Verifier σ)) (s : σ)
    (herr : r.err = none) (hopen : r.isResponseBodyClosed = false)
    (hresp : r.response = some resp) (hne : verifiers ≠ []) :
    ∃ (result : Option GoError) (r1 : Response),
      r.VerifyAndDecode decoder verifiers s
        = some (result, r1, (decoder resp.Body (verifiersState resp verifiers s)).2) ∧
      r1.isResponseBodyClosed = true ∧
      (result = none ↔
        verifierErrors resp verifiers s = [] ∧
        (decoder resp.Body (verifiersState resp verifiers s)).1 = none) ∧
      (result ≠ none →
        result = some (GoError.errorSlice (aggregatedErrors resp decoder verifiers s))) ∧
      (GoError.errorSlice (aggregatedErrors resp decoder verifiers s)).Error
        = GoError.join " : " ((aggregatedErrors resp decoder verifiers s).map GoError.Error) := by
  refine ⟨_, _, (by rw [verifyAndDecode_open r resp decoder verifiers s herr hopen hresp,
      effectiveVerifiers_of_ne_nil verifiers hne]),
    rfl, ?_, ?_, errorSlice_Error _⟩
  · cases hagg : aggregatedErrors resp decoder verifiers s with
    | nil =>
      simp only [true_iff]
      unfold aggregatedErrors at hagg
      rw [List.append_eq_nil] at hagg
      refine ⟨hagg.1, ?_⟩
      cases hd : (decoder resp.Body (verifiersState resp verifiers s)).1 with
      | none => rfl
      | some e => rw [hd] at hagg; simp at hagg
    | cons e es =>
      simp only [reduceCtorEq, false_iff, not_and]
      intro hv hd
      unfold aggregatedErrors at hagg
      rw [hv, hd] at hagg
      simp at hagg
  · cases hagg : aggregatedErrors resp decoder verifiers s with
    | nil => intro h; exact absurd rfl h
    | cons e es => intro _; rfl

/-- C4, at two failing verifiers and a failing decoder: the call returns one
error made of the three failures, and its message holds the three messages. -/
theorem VerifyAndDecode_aggregates_witness :
    ∃ (r1 : Response),
      brokenResponse.VerifyAndDecode (NoOpDecoder : Decoder Unit)
          [HTTPStatusCodeVerifier StatusOK, HTTPStatusCodeVerifier StatusCreated] ()
        = some (some (GoError.errorSlice brokenResponseErrors), r1, ()) ∧
      (GoError.errorSlice brokenResponseErrors).Error
        = "Unexpected status code 500. Expected 200 : "
          ++ "Unexpected status code 500. Expected 201 : unexpected EOF" := by
  obtain ⟨result, r1, hcall, _, hnil, hsome, _⟩ :=
    VerifyAndDecode_aggregates brokenResponse
      { StatusCode := 500, Header := fun _ => [],
        Body := { data := "", readErr := some (GoError.external "unexpected EOF"),
                  closed := false } }
      (NoOpDecoder : Decoder Unit)
      [HTTPStatusCodeVerifier StatusOK, HTTPStatusCodeVerifier StatusCreated] ()
      rfl rfl rfl (by simp)
  have hres : result ≠ none := by
    intro h
    have := (hnil.mp h).2
    simp [NoOpDecoder] at this
  have := hsome hres
  subst this
  exact ⟨r1, hcall, by decide⟩

/-- C5 fails as stated: a first call on `brokenResponse` fails and consumes the
body, and a further call does not return the already-consumed error but the
aggregated error of the first call. -/
theorem VerifyAndDecode_after_failed_call_counterexample :
    brokenResponse.VerifyAndDecode (NoOpDecoder : Decoder Unit) [] ()
      = some (brokenResponseConsumed.err, brokenResponseConsumed, ()) ∧
    brokenResponseConsumed.isResponseBodyClosed = true ∧
    brokenResponseConsumed.VerifyAndDecode (NoOpDecoder : Decoder Unit) [] ()
      = some (some (GoError.errorSlice
          [ GoError.errorString "Unexpected status code 500. Expected 200",
            GoError.external "unexpected EOF" ]), brokenResponseConsumed, ()) ∧
    GoError.errorSlice
        [ GoError.errorString "Unexpected status code 500. Expected 200",
          GoError.external "unexpected EOF" ] ≠ errClosedBody ∧
    (GoError.errorSlice
        [ GoError.errorString "Unexpected status code 500. Expected 200",
          GoError.external "unexpected EOF" ]).Error ≠ errClosedBody.Error :=
  ⟨rfl, rfl, rfl, (by intro h; cases h), (by decide)⟩

/-- C5, amended: after a first `VerifyAndDecode` call on a response without
transport error and with an open body, the body counts as consumed and every
further call fails, leaving the response and the decoded state untouched.
When the first call succeeded, every further call returns the
already-consumed error; when it failed, every further call returns the first
call's error again. -/
theorem VerifyAndDecode_after_consumed {σ : Type} (r r1 : Response)
    (decoder : Decoder σ) (verifiers : List (Verifier σ)) (s s1 : σ)
    (res1 : Option GoError)
    (herr : r.err = none) (hopen : r.isResponseBodyClosed = false)
    (hfirst : r.VerifyAndDecode decoder verifiers s = some (res1, r1, s1)) :
    r1.isResponseBodyClosed = true ∧
    (res1 = none → ∀ calls : List (Decoder σ × List (Verifier σ)),
      r1.verifyAndDecodeSeq calls s1
        = some (List.replicate calls.length (some errClosedBody), r1, s1)) ∧
    (∀ e, res1 = some e → ∀ calls : List (Decoder σ × List (Verifier σ)),
      r1.verifyAndDecodeSeq calls s1
        = some (List.replicate calls.length (some e), r1, s1)) := by
  cases hresp : r.response with
  | none =>
    simp [Response.VerifyAndDecode, Response.verifyAndDecode, herr, hopen, hresp] at hfirst
  | some resp =>
    rw [verifyAndDecode_open r resp decoder verifiers s herr hopen hresp] at hfirst
    simp only [Option.some.injEq, Prod.mk.injEq] at hfirst
    obtain ⟨h1, h2, h3⟩ := hfirst
    have hr1err : r1.err = res1 := by rw [← h2, ← h1]
    have hr1closed : r1.isResponseBodyClosed = true := by rw [← h2]
    refine ⟨hr1closed, ?_, ?_⟩
    · intro hnil calls
      exact verifyAndDecodeSeq_fixed r1 s1 (some errClosedBody)
        (fun d v => verifyAndDecode_of_closed r1 d v s1 (by rw [hr1err, hnil]) hr1closed) calls
    · intro e he calls
      exact verifyAndDecodeSeq_fixed r1 s1 (some e)
        (fun d v => verifyAndDecode_of_err r1 e d v s1 (by rw [hr1err, he])) calls

/-- C5 amended, at a successful first call on `okResponse`: two further calls,
whatever they ask for, both get the already-consumed error. -/
theorem VerifyAndDecode_after_consumed_witness :
    okResponseConsumed.verifyAndDecodeSeq
        [((NoOpDecoder : Decoder Unit), []),
         ((NoOpDecoder : Decoder Unit), [HTTPStatusCodeVerifier StatusCreated])] ()
      = some ([some errClosedBody, some errClosedBody], okResponseConsumed, ()) :=
  (VerifyAndDecode_after_consumed okResponse okResponseConsumed
    (NoOpDecoder : Decoder Unit) [] () () none rfl rfl rfl).2.1 rfl
    [((NoOpDecoder : Decoder Unit), []),
     ((NoOpDecoder : Decoder Unit), [HTTPStatusCodeVerifier StatusCreated])]

/-! ## Scheduling: claims -/

/-- C6: on a "201 Created" answer without Location header the verification
inside `ScheduleBuild` does fail with the parse error, and `ScheduleBuild`
then returns queue id 0 with a nil error: the branch taken on `err != nil`
returns `0, nil`. -/
theorem ScheduleBuild_without_location_returns_nil :
    (Requestor.DoVerifyAndDecode none (Except.ok createdWithoutLocation) NoOpDecoder
        [HTTPStatusCodeVerifier StatusCreated, queueIDFromLocation] 0).1
      = some (GoError.errorSlice [GoError.errorString "failed to parse queueID"]) ∧
    ScheduleBuild none (Except.ok createdWithoutLocation) = (0, none) :=
  ⟨rfl, rfl⟩

/-! ## Deadlines: claims -/

/-- C7: the context `setTimeoutIfNotSet` returns always has a deadline.  A
context that carries a deadline is returned unchanged, whatever the default
is (also when the default would end earlier); a context without deadline gets
the deadline "now plus the default timeout" and is done as a context with
that deadline is.  `DefaultWaitForBuildToBeQueuedTimeout` is one minute and
`DefaultWaitForBuildToBeCompletedTimeout` is 25 minutes, in nanoseconds;
`WaitUntilBuildIsQueued` passes the former and `WaitUntilBuildIsComplete` the
latter: on a context without deadline they wait exactly as on the context that
ends one minute, respectively 25 minutes, from now. -/
theorem setTimeoutIfNotSet_deadline (ctx : Context) (timeout now : Time)
    (childDone : Time → Nat → Option GoError) :
    (setTimeoutIfNotSet ctx timeout now childDone).deadline ≠ none ∧
    (∀ dl, ctx.deadline = some dl → setTimeoutIfNotSet ctx timeout now childDone = ctx) ∧
    (ctx.deadline = none →
      (setTimeoutIfNotSet ctx timeout now childDone).deadline = some (now + timeout)) ∧
    (ctx.deadline = none →
      (setTimeoutIfNotSet ctx timeout now childDone).doneAt = childDone (now + timeout)) ∧
    (DefaultWaitForBuildToBeQueuedTimeout = 60000000000 ∧
      DefaultWaitForBuildToBeCompletedTimeout = 1500000000000) ∧
    (ctx.deadline = none → ∀ retryAfter unmarshal buildErr server fuel,
      WaitUntilBuildIsQueued ctx retryAfter now childDone unmarshal buildErr server fuel
        = WaitUntilBuildIsQueued
            { deadline := some (now + 60000000000),
              doneAt := childDone (now + 60000000000) }
            retryAfter now childDone unmarshal buildErr server fuel) ∧
    (ctx.deadline = none → ∀ retryAfter unmarshal buildErr server fuel,
      WaitUntilBuildIsComplete ctx retryAfter now childDone unmarshal buildErr server fuel
        = WaitUntilBuildIsComplete
            { deadline := some (now + 1500000000000),
              doneAt := childDone (now + 1500000000000) }
            retryAfter now childDone unmarshal buildErr server fuel) ∧
    (ctx.deadline = none →
      setTimeoutIfNotSet ctx DefaultWaitForBuildToBeQueuedTimeout now childDone
        = { deadline := some (now + 60000000000),
            doneAt := childDone (now + 60000000000) } ∧
      setTimeoutIfNotSet ctx DefaultWaitForBuildToBeCompletedTimeout now childDone
        = { deadline := some (now + 1500000000000),
            doneAt := childDone (now + 1500000000000) }) := by
  refine ⟨?_, ?_, ?_, ?_, ⟨by decide, by decide⟩, ?_, ?_, ?_⟩
  · cases h : ctx.deadline with
    | none => simp [setTimeoutIfNotSet, WithTimeout, WithDeadline, h]
    | some dl => simp [setTimeoutIfNotSet, h]
  · intro dl h
    simp [setTimeoutIfNotSet, h]
  · intro h
    simp [setTimeoutIfNotSet, WithTimeout, WithDeadline, h]
  · intro h
    simp [setTimeoutIfNotSet, WithTimeout, WithDeadline, h]
  · intro h retryAfter unmarshal buildErr server fuel
    simp [WaitUntilBuildIsQueued, setTimeoutIfNotSet, WithTimeout, WithDeadline, h,
      DefaultWaitForBuildToBeQueuedTimeout, Minute]
  · intro h retryAfter unmarshal buildErr server fuel
    simp [WaitUntilBuildIsComplete, setTimeoutIfNotSet, WithTimeout, WithDeadline, h,
      DefaultWaitForBuildToBeCompletedTimeout, Minute]
  · intro h
    constructor
    · simp [setTimeoutIfNotSet, WithTimeout, WithDeadline, h,
        DefaultWaitForBuildToBeQueuedTimeout, Minute]
    · simp [setTimeoutIfNotSet, WithTimeout, WithDeadline, h,
        DefaultWaitForBuildToBeCompletedTimeout, Minute]

/-- C7, at the two tests of jenkins_api_test.go and at the two waits.  A
background context gets the deadline five hours from now; a context that
already ends in one hour keeps its deadline although the default is five
hours.  Under a background context, with a `select` returning every ten
seconds and a queue item that never gets a build number, the queue wait ends
with `DeadlineExceeded` at the sixth `select`, one minute after its start;
with a `select` returning every five minutes and a build that stays in
progress, the build wait ends with `DeadlineExceeded` at the fifth `select`,
25 minutes after its start. -/
theorem setTimeoutIfNotSet_deadline_witness :
    (setTimeoutIfNotSet backgroundCtx (300 * Minute) 1000 (fun _ _ => none)).deadline
      = some (1000 + 300 * Minute) ∧
    setTimeoutIfNotSet (doneFromCtx (some (1000 + 60 * Minute)) 7 GoError.deadlineExceeded)
        (300 * Minute) 1000 (fun _ _ => none)
      = doneFromCtx (some (1000 + 60 * Minute)) 7 GoError.deadlineExceeded ∧
    WaitUntilBuildIsQueued backgroundCtx 10000000000 0 (deadlineDone tenSecondClock)
        unmarshalQueueItemSample none waitingQueueServerSample 10
      = some { value := { Number := 0, URL := "" },
               err := some GoError.deadlineExceeded, calls := 6 } ∧
    WaitUntilBuildIsComplete backgroundCtx 300000000000 0 (deadlineDone fiveMinuteClock)
        unmarshalBuildInfoSample none buildingServerSample 10
      = some { value := { Number := 2, QueueID := 3,
                          URL := "http://testurl.com/jenkins/job/Test/2",
                          Result := "SUCCESS", Building := true },
               err := some GoError.deadlineExceeded, calls := 5 } :=
  ⟨(setTimeoutIfNotSet_deadline backgroundCtx (300 * Minute) 1000 (fun _ _ => none)).2.2.1 rfl,
   (setTimeoutIfNotSet_deadline
      (doneFromCtx (some (1000 + 60 * Minute)) 7 GoError.deadlineExceeded)
      (300 * Minute) 1000 (fun _ _ => none)).2.1 (1000 + 60 * Minute) rfl,
   ((setTimeoutIfNotSet_deadline backgroundCtx 0 0 (deadlineDone tenSecondClock)).2.2.2.2.2.1
      rfl 10000000000 unmarshalQueueItemSample none waitingQueueServerSample 10).trans rfl,
   ((setTimeoutIfNotSet_deadline backgroundCtx 0 0 (deadlineDone fiveMinuteClock)).2.2.2.2.2.2.1
      rfl 300000000000 unmarshalBuildInfoSample none buildingServerSample 10).trans rfl⟩

/-! ## Polling operations: lemmas -/

theorem DoVerifyAndDecode_eq {σ : Type} (buildErr : Option GoError)
    (exchange : Except GoError HTTPResponse) (decoder : Decoder σ)
    (verifiers : List (Verifier σ)) (s : σ) (out : Option GoError × Response × σ)
    (h : (Requestor.Do buildErr exchange).VerifyAndDecode decoder verifiers s = some out) :
    Requestor.DoVerifyAndDecode buildErr exchange decoder verifiers s = out := by
  unfold Requestor.DoVerifyAndDecode
  split
  · rename_i o ho
    rw [h] at ho
    exact (Option.some.inj ho).symm
  · rename_i ho
    rw [h] at ho
    cases ho

/-- When `Do` returns a response that carries an error, the chain ends with
that error and the closures are not touched. -/
theorem DoVerifyAndDecode_of_err {σ : Type} (buildErr : Option GoError)
    (exchange : Except GoError HTTPResponse) (e : GoError) (decoder : Decoder σ)
    (verifiers : List (Verifier σ)) (s : σ)
    (herr : (Requestor.Do buildErr exchange).err = some e) :
    Requestor.DoVerifyAndDecode buildErr exchange decoder verifiers s
      = (some e, Requestor.Do buildErr exchange, s) :=
  DoVerifyAndDecode_eq _ _ _ _ _ _ (verifyAndDecode_of_err _ e _ _ _ herr)

/-- The chain on a status 200 answer with the default verifier: the decoder
decides. -/
theorem DoVerifyAndDecode_ok200 {σ : Type} (resp : HTTPResponse) (decoder : Decoder σ)
    (s : σ) (hstatus : resp.StatusCode = 200) :
    (Requestor.DoVerifyAndDecode none (Except.ok resp) decoder [] s).1
        = (match (decoder resp.Body s).1 with
            | none => none
            | some e => some (GoError.errorSlice [e])) ∧
    (Requestor.DoVerifyAndDecode none (Except.ok resp) decoder [] s).2.2
        = (decoder resp.Body s).2 := by
  have hopen := verifyAndDecode_open (Requestor.Do none (Except.ok resp)) resp decoder [] s
    rfl rfl rfl
  rw [DoVerifyAndDecode_eq _ _ _ _ _ _ hopen]
  have hv : verifierErrors resp (effectiveVerifiers ([] : List (Verifier σ))) s = [] := by
    simp [effectiveVerifiers, verifierErrors, StatusOKVerifier, HTTPStatusCodeVerifier,
      StatusOK, hstatus]
  have hs : verifiersState resp (effectiveVerifiers ([] : List (Verifier σ))) s = s := by
    simp [effectiveVerifiers, verifiersState, StatusOKVerifier, HTTPStatusCodeVerifier,
      StatusOK, hstatus]
  simp only [aggregatedErrors, hv, hs, List.nil_append]
  cases (decoder resp.Body s).1 <;> simp

theorem queuedProbe_requests (unmarshal : Body → QueueItem → Option GoError × QueueItem)
    (buildErr : Option GoError) (server : Nat → Except GoError HTTPResponse)
    (s : QueueWaitState) (j : Nat) :
    (probeState (queuedProbe unmarshal buildErr server) s j).requests = s.requests + j := by
  induction j with
  | zero => rfl
  | succ j ih => simp only [probeState, queuedProbe, ih]; omega

theorem buildProbe_requests (unmarshal : Body → BuildInfo → Option GoError × BuildInfo)
    (buildErr : Option GoError) (server : Nat → Except GoError HTTPResponse)
    (s : BuildWaitState) (j : Nat) :
    (probeState (buildProbe unmarshal buildErr server) s j).requests = s.requests + j := by
  induction j with
  | zero => rfl
  | succ j ih => simp only [probeState, buildProbe, ih]; omega

/-- A probe that never answers `(false, nil)` never lets the loop return nil. -/
theorem retryLoop_never_nil {σ : Type} (ctx : Context) (fn : Probe σ)
    (hfn : ∀ s, (fn s).1.2 = none → (fn s).1.1 = true) :
    ∀ (fuel : Nat) (shouldRetry : Bool) (err : Option GoError) (c w : Nat) (s : σ)
      (r : RetryResult σ),
      (err = none → shouldRetry = true) →
      retryLoop ctx fn fuel shouldRetry err c w s = some r → r.err ≠ none := by
  intro fuel
  induction fuel with
  | zero =>
    intro shouldRetry err c w s r hinv h
    cases err with
    | none =>
      rw [hinv rfl] at h
      simp [retryLoop] at h
    | some e =>
      rw [retryLoop_stop ctx fn 0 shouldRetry (some e) c w s (by simp)] at h
      cases h
      simp
  | succ fuel ih =>
    intro shouldRetry err c w s r hinv h
    cases err with
    | some e =>
      rw [retryLoop_stop ctx fn (fuel + 1) shouldRetry (some e) c w s (by simp)] at h
      cases h
      simp
    | none =>
      rw [hinv rfl] at h
      cases hd : ctx.doneAt w with
      | some e =>
        rw [retryLoop_ctxDone ctx fn fuel c w s e hd] at h
        cases h
        simp
      | none =>
        rw [retryLoop_timer ctx fn fuel c w s hd] at h
        exact ih _ _ _ _ _ r (hfn s) h

/-- One invocation of the queue probe on a status 200 answer. -/
theorem queuedProbe_ok200 (unmarshal : Body → QueueItem → Option GoError × QueueItem)
    (server : Nat → Except GoError HTTPResponse) (st : QueueWaitState) (resp : HTTPResponse)
    (hserver : server st.requests = Except.ok resp) (hstatus : resp.StatusCode = 200) :
    queuedProbe unmarshal none server st
      = (((unmarshal resp.Body st.Executable).2.Number == 0,
          (match (unmarshal resp.Body st.Executable).1 with
            | none => none
            | some e => some (GoError.errorSlice [e]))),
         { Executable := (unmarshal resp.Body st.Executable).2,
           requests := st.requests + 1 }) := by
  have h := DoVerifyAndDecode_ok200 resp (JsonDecoder unmarshal) st.Executable hstatus
  simp only [JsonDecoder] at h
  simp only [queuedProbe, hserver, JsonDecoder, h.1, h.2]

/-- While the answers carry no build number, the captured variable keeps the
build number 0 and the probe keeps asking for a retry. -/
theorem queuedProbe_waiting (unmarshal : Body → QueueItem → Option GoError × QueueItem)
    (server : Nat → Except GoError HTTPResponse) (s : QueueWaitState) (n : Nat)
    (hs : s.requests = 0) (hs0 : s.Executable.Number = 0)
    (hfirst : ∀ j, j < n → ∃ resp, server j = Except.ok resp ∧ resp.StatusCode = 200 ∧
      ∀ q : QueueItem, q.Number = 0 →
        (unmarshal resp.Body q).1 = none ∧ (unmarshal resp.Body q).2.Number = 0) :
    ∀ j, j ≤ n →
      (probeState (queuedProbe unmarshal none server) s j).Executable.Number = 0 ∧
      ∀ i, i < j → probeResult (queuedProbe unmarshal none server) s i = (true, none) := by
  intro j
  induction j with
  | zero => intro _; exact ⟨hs0, fun i hi => absurd hi (Nat.not_lt_zero i)⟩
  | succ j ih =>
    intro hj
    obtain ⟨hnum, hres⟩ := ih (by omega)
    obtain ⟨resp, hserver, hstatus, hdec⟩ := hfirst j (by omega)
    have hreq : (probeState (queuedProbe unmarshal none server) s j).requests = j := by
      rw [queuedProbe_requests, hs]; omega
    have hstep := queuedProbe_ok200 unmarshal server
      (probeState (queuedProbe unmarshal none server) s j) resp (by rw [hreq]; exact hserver)
      hstatus
    obtain ⟨hd1, hd2⟩ := hdec _ hnum
    refine ⟨?_, ?_⟩
    · simp only [probeState, hstep, hd2]
    · intro i hi
      by_cases hij : i < j
      · exact hres i hij
      · have : i = j := by omega
        subst this
        simp only [probeResult, hstep, hd1, hd2, beq_self_eq_true]

/-! ## Polling operations: claims -/

/-- C8: when the first `n` answers to the queue item request are verified and
decoded without leaving a build number in the variable (the number is 0 or
absent), the answer numbered `n + 1` is verified and decoded to an executable
with number `num ≠ 0` and URL `u`, and the `n` waits end by the timer,
`WaitUntilBuildIsQueued` returns `QueueItem` with `Number: num, URL: u` and a
nil error after exactly `n + 1` probe invocations. -/
theorem WaitUntilBuildIsQueued_returns_executable (ctx : Context) (retryAfter now : Time)
    (childDone : Time → Nat → Option GoError)
    (unmarshal : Body → QueueItem → Option GoError × QueueItem)
    (server : Nat → Except GoError HTTPResponse) (n num : Nat) (u : String)
    (hfirst : ∀ j, j < n → ∃ resp, server j = Except.ok resp ∧ resp.StatusCode = 200 ∧
      ∀ q : QueueItem, q.Number = 0 →
        (unmarshal resp.Body q).1 = none ∧ (unmarshal resp.Body q).2.Number = 0)
    (hlast : ∃ resp, server n = Except.ok resp ∧ resp.StatusCode = 200 ∧
      ∀ q : QueueItem, unmarshal resp.Body q = (none, { Number := num, URL := u }))
    (hnum : num ≠ 0)
    (hwait : ∀ j, j < n →
      (setTimeoutIfNotSet ctx DefaultWaitForBuildToBeQueuedTimeout now childDone).doneAt j
        = none)
    (fuel : Nat) (hfuel : n ≤ fuel) :
    WaitUntilBuildIsQueued ctx retryAfter now childDone unmarshal none server fuel
      = some { value := { Number := num, URL := u }, err := none, calls := n + 1 } := by
  obtain ⟨hzero, hres⟩ := queuedProbe_waiting unmarshal server
    { Executable := { Number := 0, URL := "" }, requests := 0 } n rfl rfl hfirst n
    (Nat.le_refl n)
  obtain ⟨resp, hserver, hstatus, hdec⟩ := hlast
  have hreq : (probeState (queuedProbe unmarshal none server)
      { Executable := { Number := 0, URL := "" }, requests := 0 } n).requests = n := by
    rw [queuedProbe_requests]; simp
  have hstep := queuedProbe_ok200 unmarshal server
    (probeState (queuedProbe unmarshal none server)
      { Executable := { Number := 0, URL := "" }, requests := 0 } n) resp
    (by rw [hreq]; exact hserver) hstatus
  rw [hdec] at hstep
  have hdone : probeResult (queuedProbe unmarshal none server)
      { Executable := { Number := 0, URL := "" }, requests := 0 } n = (false, none) := by
    simp only [probeResult, hstep]
    simp [hnum]
  have hrun := (retryUntilFalseOrError_done
    (setTimeoutIfNotSet ctx DefaultWaitForBuildToBeQueuedTimeout now childDone) retryAfter
    (queuedProbe unmarshal none server)
    { Executable := { Number := 0, URL := "" }, requests := 0 } n
    (fun j hj => ⟨hres j hj, hwait j hj⟩) hdone).1 fuel hfuel
  simp only [WaitUntilBuildIsQueued, hrun, probeState, hstep]

/-- C8, at the test's case: the answers `{}` and then an item with an
executable give the second answer's build locator after exactly 2 calls. -/
theorem WaitUntilBuildIsQueued_returns_executable_witness :
    WaitUntilBuildIsQueued (doneFromCtx (some 100000000) 50 GoError.deadlineExceeded)
        1000000 0 (fun _ _ => none) unmarshalQueueItemSample none queueServerSample 1
      = some { value := { Number := 2,
                          URL := "http://testurl.com/jenkins/job/test-job-1/2/" },
               err := none, calls := 2 } :=
  WaitUntilBuildIsQueued_returns_executable
    (doneFromCtx (some 100000000) 50 GoError.deadlineExceeded) 1000000 0 (fun _ _ => none)
    unmarshalQueueItemSample queueServerSample 1 2
    "http://testurl.com/jenkins/job/test-job-1/2/"
    (by
      intro j hj
      interval_cases j
      exact ⟨_, rfl, rfl, fun q hq => ⟨rfl, hq⟩⟩)
    ⟨_, rfl, rfl, fun _ => rfl⟩ (by decide)
    (by intro j hj; interval_cases j; rfl) 1 (Nat.le_refl 1)

/-- The result of the build probe in terms of `jobAPI.BuildInfo`. -/
theorem buildProbe_result (unmarshal : Body → BuildInfo → Option GoError × BuildInfo)
    (buildErr : Option GoError) (server : Nat → Except GoError HTTPResponse)
    (s : BuildWaitState) (j : Nat) (hs : s.requests = 0) :
    probeResult (buildProbe unmarshal buildErr server) s j
        = ((jobAPI.BuildInfo unmarshal buildErr (server j)).1.Building,
           (jobAPI.BuildInfo unmarshal buildErr (server j)).2) ∧
    (probeState (buildProbe unmarshal buildErr server) s (j + 1)).buildInfo
        = (jobAPI.BuildInfo unmarshal buildErr (server j)).1 := by
  have hreq := buildProbe_requests unmarshal buildErr server s j
  rw [hs, Nat.zero_add] at hreq
  simp only [probeResult, probeState, buildProbe, hreq, and_self]

/-- C9 fails as stated: a context with the deadline 5 that was cancelled
before its deadline reports `context.Canceled`, also after the deadline has
passed.  Called when the clock reads 1000, with a server that reports
`building = true` on every answer, `WaitUntilBuildIsComplete` returns
`context.Canceled` from its first wait; and when the request is refused on
account of the cancelled context, it returns the error of the request.
Neither is a deadline-exceeded error. -/
theorem WaitUntilBuildIsComplete_cancelled_context_counterexample :
    (doneFromCtx (some 5) 0 GoError.canceled).deadline = some 5 ∧ (5 : Time) < 1000 ∧
    (∀ i, (jobAPI.BuildInfo unmarshalBuildInfoSample none (buildingServerSample i)).2 = none →
      (jobAPI.BuildInfo unmarshalBuildInfoSample none (buildingServerSample i)).1.Building
        = true) ∧
    WaitUntilBuildIsComplete (doneFromCtx (some 5) 0 GoError.canceled) 2000000 1000
        (fun _ _ => none) unmarshalBuildInfoSample none buildingServerSample 1
      = some { value := { Number := 2, QueueID := 3,
                          URL := "http://testurl.com/jenkins/job/Test/2",
                          Result := "SUCCESS", Building := true },
               err := some GoError.canceled, calls := 1 } ∧
    WaitUntilBuildIsComplete (doneFromCtx (some 5) 0 GoError.canceled) 2000000 1000
        (fun _ _ => none) unmarshalBuildInfoSample none refusedRequestServerSample 1
      = some { value := BuildInfo.zero,
               err := some (GoError.external
                 "Get http://testurl.com/job/Test/1/api/json: context canceled"),
               calls := 1 } ∧
    GoError.canceled ≠ GoError.deadlineExceeded ∧
    GoError.external "Get http://testurl.com/job/Test/1/api/json: context canceled"
      ≠ GoError.deadlineExceeded ∧
    GoError.canceled.Error ≠ GoError.deadlineExceeded.Error :=
  ⟨rfl, (by decide), (fun _ _ => rfl), rfl, rfl, (by intro h; cases h),
    (by intro h; cases h), (by decide)⟩

/-- C9, amended: when every answer of the build-info endpoint that is verified
and decoded reports `building = true`, `WaitUntilBuildIsComplete` never returns
a nil error.  After answers that were all verified and decoded it returns the
error the context reports when a wait finds the context done: whatever
`ctx.Err()` is, and for a context that is never cancelled and ends by its
deadline `context.DeadlineExceeded`, at the first wait that ends once the
deadline has passed and not before.  When a request fails, it returns the
error of that request, unchanged, and the zero `BuildInfo`. -/
theorem WaitUntilBuildIsComplete_still_building (ctx : Context) (retryAfter now : Time)
    (childDone : Time → Nat → Option GoError)
    (unmarshal : Body → BuildInfo → Option GoError × BuildInfo)
    (buildErr : Option GoError) (server : Nat → Except GoError HTTPResponse)
    (hbuilding : ∀ i, (jobAPI.BuildInfo unmarshal buildErr (server i)).2 = none →
      (jobAPI.BuildInfo unmarshal buildErr (server i)).1.Building = true) :
    (∀ fuel res,
      WaitUntilBuildIsComplete ctx retryAfter now childDone unmarshal buildErr server fuel
        = some res → res.err ≠ none) ∧
    (∀ n e,
      (∀ j, j ≤ n → (jobAPI.BuildInfo unmarshal buildErr (server j)).2 = none) →
      (∀ j, j < n →
        (setTimeoutIfNotSet ctx DefaultWaitForBuildToBeCompletedTimeout now childDone).doneAt j
          = none) →
      (setTimeoutIfNotSet ctx DefaultWaitForBuildToBeCompletedTimeout now childDone).doneAt n
        = some e →
      ∀ fuel, n < fuel →
        WaitUntilBuildIsComplete ctx retryAfter now childDone unmarshal buildErr server fuel
          = some { value := (jobAPI.BuildInfo unmarshal buildErr (server n)).1,
                   err := some e, calls := n + 1 }) ∧
    (∀ (clock : Nat → Time) (dl : Time) (n : Nat),
      (setTimeoutIfNotSet ctx DefaultWaitForBuildToBeCompletedTimeout now childDone).deadline
        = some dl →
      (∀ i,
        (setTimeoutIfNotSet ctx DefaultWaitForBuildToBeCompletedTimeout now childDone).doneAt i
          = deadlineDone clock dl i) →
      (∀ j, j ≤ n → (jobAPI.BuildInfo unmarshal buildErr (server j)).2 = none) →
      (∀ j, j < n → clock j < dl) → dl ≤ clock n →
      ∀ fuel, n < fuel →
        WaitUntilBuildIsComplete ctx retryAfter now childDone unmarshal buildErr server fuel
          = some { value := (jobAPI.BuildInfo unmarshal buildErr (server n)).1,
                   err := some GoError.deadlineExceeded, calls := n + 1 }) ∧
    (∀ n e,
      (∀ j, j < n → (jobAPI.BuildInfo unmarshal buildErr (server j)).2 = none ∧
        (setTimeoutIfNotSet ctx DefaultWaitForBuildToBeCompletedTimeout now childDone).doneAt j
          = none) →
      (Requestor.Do buildErr (server n)).err = some e →
      ∀ fuel, n ≤ fuel →
        WaitUntilBuildIsComplete ctx retryAfter now childDone unmarshal buildErr server fuel
          = some { value := BuildInfo.zero, err := some e, calls := n + 1 }) := by
  have hres : ∀ j, (jobAPI.BuildInfo unmarshal buildErr (server j)).2 = none →
      probeResult (buildProbe unmarshal buildErr server)
        { buildInfo := BuildInfo.zero, requests := 0 } j = (true, none) := by
    intro j hj
    rw [(buildProbe_result unmarshal buildErr server _ j rfl).1, hj, hbuilding j hj]
  have hdoneCase : ∀ n e,
      (∀ j, j ≤ n → (jobAPI.BuildInfo unmarshal buildErr (server j)).2 = none) →
      (∀ j, j < n →
        (setTimeoutIfNotSet ctx DefaultWaitForBuildToBeCompletedTimeout now childDone).doneAt j
          = none) →
      (setTimeoutIfNotSet ctx DefaultWaitForBuildToBeCompletedTimeout now childDone).doneAt n
        = some e →
      ∀ fuel, n < fuel →
        WaitUntilBuildIsComplete ctx retryAfter now childDone unmarshal buildErr server fuel
          = some { value := (jobAPI.BuildInfo unmarshal buildErr (server n)).1,
                   err := some e, calls := n + 1 } := by
    intro n e hok hwait hdone fuel hfuel
    obtain ⟨f, rfl⟩ : ∃ f, fuel = (f + 1) + n := ⟨fuel - n - 1, by omega⟩
    have hrun := retryUntilFalseOrError_advance
      (setTimeoutIfNotSet ctx DefaultWaitForBuildToBeCompletedTimeout now childDone)
      retryAfter (buildProbe unmarshal buildErr server)
      { buildInfo := BuildInfo.zero, requests := 0 } n (f + 1)
      (fun j hj => ⟨hres j (hok j (by omega)), hwait j hj⟩)
    rw [hres n (hok n (Nat.le_refl n)), retryLoop_ctxDone _ _ f (n + 1) n _ e hdone] at hrun
    have hstate := (buildProbe_result unmarshal buildErr server
      { buildInfo := BuildInfo.zero, requests := 0 } n rfl).2
    simp only [WaitUntilBuildIsComplete, hrun, hstate]
  refine ⟨?_, hdoneCase, ?_, ?_⟩
  · intro fuel res h
    simp only [WaitUntilBuildIsComplete] at h
    cases hr : retryUntilFalseOrError
        (setTimeoutIfNotSet ctx DefaultWaitForBuildToBeCompletedTimeout now childDone)
        retryAfter (buildProbe unmarshal buildErr server) fuel
        { buildInfo := BuildInfo.zero, requests := 0 } with
    | none => rw [hr] at h; cases h
    | some r =>
      rw [hr] at h
      simp only [Option.some.injEq] at h
      subst h
      have hfn : ∀ s, (buildProbe unmarshal buildErr server s).1.2 = none →
          (buildProbe unmarshal buildErr server s).1.1 = true :=
        fun s hs => hbuilding s.requests hs
      exact retryLoop_never_nil _ _ hfn fuel _ _ 1 0 _ r (hfn _) hr
  · intro clock dl n _ hgov hok hbefore hafter fuel hfuel
    refine hdoneCase n GoError.deadlineExceeded hok ?_ ?_ fuel hfuel
    · intro j hj
      rw [hgov j]
      have hlt := hbefore j hj
      simp only [deadlineDone]
      rw [if_neg (not_le.mpr hlt)]
    · rw [hgov n]
      simp only [deadlineDone]
      rw [if_pos hafter]
  · intro n e hreach hfail fuel hfuel
    have hinfo : jobAPI.BuildInfo unmarshal buildErr (server n) = (BuildInfo.zero, some e) := by
      simp only [jobAPI.BuildInfo, DoVerifyAndDecode_of_err _ _ e _ _ _ hfail]
    have hprobe := buildProbe_result unmarshal buildErr server
      { buildInfo := BuildInfo.zero, requests := 0 } n rfl
    rw [hinfo] at hprobe
    have hrun := retry_stops_on_probe_error
      (setTimeoutIfNotSet ctx DefaultWaitForBuildToBeCompletedTimeout now childDone) retryAfter
      (buildProbe unmarshal buildErr server)
      { buildInfo := BuildInfo.zero, requests := 0 } n e
      (fun j hj => ⟨hres j (hreach j hj).1, (hreach j hj).2⟩)
      (by rw [hprobe.1]) fuel hfuel
    simp only [WaitUntilBuildIsComplete, hrun, hprobe.2]

/-- C9 amended, at the test `TestJobApi_WaitUntilBuildIsComplete_TimesoutCorrectly`:
the context ends one millisecond after the start, the retry interval is two
milliseconds and the build is always in progress; the first wait ends when
the deadline passes, and the wait returns `context.DeadlineExceeded` after one
invocation. -/
theorem WaitUntilBuildIsComplete_still_building_witness :
    WaitUntilBuildIsComplete (deadlineCtx oneMillisecondClock 1000000)
        2000000 0 (fun _ _ => none) unmarshalBuildInfoSample none buildingServerSample 1
      = some { value := { Number := 2, QueueID := 3,
                          URL := "http://testurl.com/jenkins/job/Test/2",
                          Result := "SUCCESS", Building := true },
               err := some GoError.deadlineExceeded, calls := 1 } :=
  (WaitUntilBuildIsComplete_still_building
    (deadlineCtx oneMillisecondClock 1000000) 2000000 0 (fun _ _ => none)
    unmarshalBuildInfoSample none buildingServerSample (fun _ _ => rfl)).2.2.1
    oneMillisecondClock 1000000 0 rfl (fun _ => rfl) (fun _ _ => rfl)
    (by intro j hj; omega) (by decide) 1 (by decide)

/-- C10: a response that carries a transport error `e`, as `Requestor.Do`
builds it when the request cannot be built or the HTTP exchange fails, makes
`VerifyAndDecode` return exactly `e` for every decoder and all verifiers, with
the response and the state of the closures untouched (no verifier and no
decoder runs).  The probes of both waits then return `e`, and the wait stops
at that attempt: when the request numbered `n + 1` is the first to meet a
transport error, the wait returns `e` after exactly `n + 1` invocations. -/
theorem VerifyAndDecode_transport_error :
    (∀ (e : GoError) (exchange : Except GoError HTTPResponse),
      (Requestor.Do (some e) exchange).err = some e ∧
      (Requestor.Do none (Except.error e)).err = some e) ∧
    (∀ (σ : Type) (r : Response) (e : GoError) (decoder : Decoder σ)
        (verifiers : List (Verifier σ)) (s : σ),
      r.err = some e → r.VerifyAndDecode decoder verifiers s = some (some e, r, s)) ∧
    (∀ unmarshal buildErr server (st : QueueWaitState) (e : GoError),
      (Requestor.Do buildErr (server st.requests)).err = some e →
      (queuedProbe unmarshal buildErr server st).1.2 = some e ∧
      (queuedProbe unmarshal buildErr server st).2.Executable = st.Executable) ∧
    (∀ unmarshal buildErr server (st : BuildWaitState) (e : GoError),
      (Requestor.Do buildErr (server st.requests)).err = some e →
      (buildProbe unmarshal buildErr server st).1.2 = some e) ∧
    (∀ ctx retryAfter now childDone unmarshal buildErr server (n : Nat) (e : GoError),
      (∀ j, j < n →
        probeResult (queuedProbe unmarshal buildErr server)
          { Executable := { Number := 0, URL := "" }, requests := 0 } j = (true, none) ∧
        (setTimeoutIfNotSet ctx DefaultWaitForBuildToBeQueuedTimeout now childDone).doneAt j
          = none) →
      (Requestor.Do buildErr (server n)).err = some e →
      ∀ fuel, n ≤ fuel → ∃ v,
        WaitUntilBuildIsQueued ctx retryAfter now childDone unmarshal buildErr server fuel
          = some { value := v, err := some e, calls := n + 1 }) ∧
    (∀ ctx retryAfter now childDone unmarshal buildErr server (n : Nat) (e : GoError),
      (∀ j, j < n →
        probeResult (buildProbe unmarshal buildErr server)
          { buildInfo := BuildInfo.zero, requests := 0 } j = (true, none) ∧
        (setTimeoutIfNotSet ctx DefaultWaitForBuildToBeCompletedTimeout now childDone).doneAt j
          = none) →
      (Requestor.Do buildErr (server n)).err = some e →
      ∀ fuel, n ≤ fuel → ∃ v,
        WaitUntilBuildIsComplete ctx retryAfter now childDone unmarshal buildErr server fuel
          = some { value := v, err := some e, calls := n + 1 }) := by
  have hq : ∀ unmarshal buildErr server (st : QueueWaitState) (e : GoError),
      (Requestor.Do buildErr (server st.requests)).err = some e →
      (queuedProbe unmarshal buildErr server st).1.2 = some e ∧
      (queuedProbe unmarshal buildErr server st).2.Executable = st.Executable := by
    intro unmarshal buildErr server st e h
    simp only [queuedProbe, DoVerifyAndDecode_of_err _ _ e _ _ _ h, and_self]
  have hb : ∀ unmarshal buildErr server (st : BuildWaitState) (e : GoError),
      (Requestor.Do buildErr (server st.requests)).err = some e →
      (buildProbe unmarshal buildErr server st).1.2 = some e := by
    intro unmarshal buildErr server st e h
    simp only [buildProbe, jobAPI.BuildInfo, DoVerifyAndDecode_of_err _ _ e _ _ _ h]
  refine ⟨fun e exchange => ⟨rfl, rfl⟩, ?_, hq, hb, ?_, ?_⟩
  · intro σ r e decoder verifiers s h
    exact verifyAndDecode_of_err r e decoder verifiers s h
  · intro ctx retryAfter now childDone unmarshal buildErr server n e hreach hfail fuel hfuel
    have hreq := queuedProbe_requests unmarshal buildErr server
      { Executable := { Number := 0, URL := "" }, requests := 0 } n
    have herr := (hq unmarshal buildErr server
      (probeState (queuedProbe unmarshal buildErr server)
        { Executable := { Number := 0, URL := "" }, requests := 0 } n) e
      (by rw [hreq, Nat.zero_add]; exact hfail)).1
    have hrun := retry_stops_on_probe_error
      (setTimeoutIfNotSet ctx DefaultWaitForBuildToBeQueuedTimeout now childDone) retryAfter
      (queuedProbe unmarshal buildErr server)
      { Executable := { Number := 0, URL := "" }, requests := 0 } n e hreach herr fuel hfuel
    exact ⟨(probeState (queuedProbe unmarshal buildErr server)
      { Executable := { Number := 0, URL := "" }, requests := 0 } (n + 1)).Executable,
      by simp only [WaitUntilBuildIsQueued, hrun]⟩
  · intro ctx retryAfter now childDone unmarshal buildErr server n e hreach hfail fuel hfuel
    have hreq := buildProbe_requests unmarshal buildErr server
      { buildInfo := BuildInfo.zero, requests := 0 } n
    have herr := hb unmarshal buildErr server
      (probeState (buildProbe unmarshal buildErr server)
        { buildInfo := BuildInfo.zero, requests := 0 } n) e
      (by rw [hreq, Nat.zero_add]; exact hfail)
    have hrun := retry_stops_on_probe_error
      (setTimeoutIfNotSet ctx DefaultWaitForBuildToBeCompletedTimeout now childDone) retryAfter
      (buildProbe unmarshal buildErr server)
      { buildInfo := BuildInfo.zero, requests := 0 } n e hreach herr fuel hfuel
    exact ⟨(probeState (buildProbe unmarshal buildErr server)
      { buildInfo := BuildInfo.zero, requests := 0 } (n + 1)).buildInfo,
      by simp only [WaitUntilBuildIsComplete, hrun]⟩

/-- C10, at a server that answers `{}` once and is unreachable afterwards: the
queue wait returns the transport error of the second request after 2 calls. -/
theorem VerifyAndDecode_transport_error_witness :
    ∃ v, WaitUntilBuildIsQueued backgroundCtx 1000000 0 (fun _ _ => none)
        unmarshalQueueItemSample none unreachableServerSample 1
      = some { value := v, err := some (GoError.external "dial tcp: connection refused"),
               calls := 2 } :=
  VerifyAndDecode_transport_error.2.2.2.2.1 backgroundCtx 1000000 0 (fun _ _ => none)
    unmarshalQueueItemSample none unreachableServerSample 1
    (GoError.external "dial tcp: connection refused")
    (by intro j hj; interval_cases j; exact ⟨rfl, rfl⟩) rfl 1 (Nat.le_refl 1)

/-! ## The default verifier, single consumption, sticky failures: lemmas -/

theorem StatusOKVerifier_apply {σ : Type} (resp : HTTPResponse) (s : σ) :
    (StatusOKVerifier : Verifier σ) resp s
      = (if resp.StatusCode = 200 then none else some (unexpectedStatusOK resp.StatusCode), s) := by
  have h200 : toString (200 : Int) = "200" := by decide
  by_cases h : resp.StatusCode = 200
  · simp [StatusOKVerifier, HTTPStatusCodeVerifier, StatusOK, h]
  · simp only [StatusOKVerifier, HTTPStatusCodeVerifier, StatusOK, h, unexpectedStatusOK, h200,
      ne_eq, not_false_eq_true, if_true, if_false]
    rw [String.append_assoc _ ". Expected " "200"]
    rfl

/-- The value `VerifyAndDecode` computes when no verifier is supplied. -/
theorem verifyAndDecode_default {σ : Type} (r : Response) (resp : HTTPResponse)
    (decoder : Decoder σ) (s : σ)
    (herr : r.err = none) (hopen : r.isResponseBodyClosed = false)
    (hresp : r.response = some resp) (hdec : (decoder resp.Body s).1 = none) :
    r.VerifyAndDecode decoder [] s
      = some (
          (if resp.StatusCode = 200 then none
            else some (GoError.errorSlice [unexpectedStatusOK resp.StatusCode])),
          { err := (if resp.StatusCode = 200 then none
              else some (GoError.errorSlice [unexpectedStatusOK resp.StatusCode])),
            response := some { resp with Body := { resp.Body with closed := true } },
            isResponseBodyClosed := true },
          (decoder resp.Body s).2) := by
  rw [verifyAndDecode_open r resp decoder [] s herr hopen hresp]
  have hs : verifiersState resp (effectiveVerifiers ([] : List (Verifier σ))) s = s := by
    simp [effectiveVerifiers, verifiersState, StatusOKVerifier_apply]
  have hv : verifierErrors resp (effectiveVerifiers ([] : List (Verifier σ))) s
      = (if resp.StatusCode = 200 then [] else [unexpectedStatusOK resp.StatusCode]) := by
    by_cases h : resp.StatusCode = 200
    · simp [effectiveVerifiers, verifierErrors, StatusOKVerifier_apply, h]
    · simp [effectiveVerifiers, verifierErrors, StatusOKVerifier_apply, h]
  simp only [aggregatedErrors, hs, hv, hdec, Option.toList, List.append_nil]
  by_cases h : resp.StatusCode = 200
  · simp [h]
  · simp [h]

/-! ## The default verifier: claim -/

/-- C11: on a response without transport error and with an open body, and a
decoder that succeeds on the body, `VerifyAndDecode` without verifiers returns
nil when the status code is 200 and otherwise an error whose message is
`Unexpected status code <actual>. Expected 200` (so it returns nil exactly
when the status code is 200).  With at least one verifier supplied the status
code is not compared with 200: if the supplied verifiers and the decoder
succeed the call returns nil, whatever the status code. -/
theorem VerifyAndDecode_default_verifier {σ : Type} (r : Response) (resp : HTTPResponse)
    (decoder : Decoder σ) (s : σ)
    (herr : r.err = none) (hopen : r.isResponseBodyClosed = false)
    (hresp : r.response = some resp) (hdec : (decoder resp.Body s).1 = none) :
    (∃ (result : Option GoError) (r1 : Response),
      r.VerifyAndDecode decoder [] s = some (result, r1, (decoder resp.Body s).2) ∧
      (result = none ↔ resp.StatusCode = 200) ∧
      (resp.StatusCode ≠ 200 → ∃ e, result = some e ∧
        e.Error = "Unexpected status code " ++ toString resp.StatusCode ++ ". Expected 200")) ∧
    (∀ verifiers : List (Verifier σ), verifiers ≠ [] →
      verifierErrors resp verifiers s = [] →
      (decoder resp.Body (verifiersState resp verifiers s)).1 = none →
      ∃ r1, r.VerifyAndDecode decoder verifiers s
        = some (none, r1, (decoder resp.Body (verifiersState resp verifiers s)).2)) := by
  constructor
  · refine ⟨_, _, verifyAndDecode_default r resp decoder s herr hopen hresp hdec, ?_, ?_⟩
    · by_cases h : resp.StatusCode = 200
      · simp [h]
      · simp [h]
    · intro h
      refine ⟨GoError.errorSlice [unexpectedStatusOK resp.StatusCode], by simp [h], ?_⟩
      simp [errorSlice_Error, GoError.join, GoError.Error, unexpectedStatusOK]
  · intro verifiers hne hv hd
    rw [verifyAndDecode_open r resp decoder verifiers s herr hopen hresp,
      effectiveVerifiers_of_ne_nil verifiers hne]
    simp only [aggregatedErrors, hv, hd, Option.toList, List.append_nil]
    exact ⟨_, rfl⟩

/-- C11, at a "201 Created" answer: without verifiers the call fails with the
message of the default verifier; with the verifier "status 201" supplied it
returns nil. -/
theorem VerifyAndDecode_default_verifier_witness :
    (∃ (result : Option GoError) (r1 : Response),
      (Requestor.Do none (Except.ok createdWithoutLocation)).VerifyAndDecode
          (NoOpDecoder : Decoder Unit) [] () = some (result, r1, ()) ∧
      ∃ e, result = some e ∧ e.Error = "Unexpected status code 201. Expected 200") ∧
    (∃ r1, (Requestor.Do none (Except.ok createdWithoutLocation)).VerifyAndDecode
          (NoOpDecoder : Decoder Unit) [HTTPStatusCodeVerifier StatusCreated] ()
        = some (none, r1, ())) := by
  obtain ⟨⟨result, r1, hcall, _, hmsg⟩, hsupplied⟩ :=
    VerifyAndDecode_default_verifier (Requestor.Do none (Except.ok createdWithoutLocation))
      createdWithoutLocation (NoOpDecoder : Decoder Unit) () rfl rfl rfl rfl
  exact ⟨⟨result, r1, hcall, hmsg (by decide)⟩,
    hsupplied [HTTPStatusCodeVerifier StatusCreated] (by simp) rfl rfl⟩

/-! ## Single consumption: lemmas -/

/-- A response that refuses returns one and the same error from every call and
stays as it is. -/
theorem verifyAndDecode_of_refuses (r : Response) (h : r.refuses = true) :
    ∃ x : GoError, ∀ (σ : Type) (decoder : Decoder σ) (verifiers : List (Verifier σ)) (s : σ),
      r.VerifyAndDecode decoder verifiers s = some (some x, r, s) := by
  cases herr : r.err with
  | some e => exact ⟨e, fun σ d v s => verifyAndDecode_of_err r e d v s herr⟩
  | none =>
    have hclosed : r.isResponseBodyClosed = true := by
      simpa [Response.refuses, herr] using h
    exact ⟨errClosedBody, fun σ d v s => verifyAndDecode_of_closed r d v s herr hclosed⟩

theorem verifyAndDecodeSeq_of_refuses {σ : Type} (r : Response) (h : r.refuses = true)
    (calls : List (Decoder σ × List (Verifier σ))) (s : σ) :
    ∃ errs, r.verifyAndDecodeSeq calls s = some (errs, r, s) := by
  obtain ⟨x, hx⟩ := verifyAndDecode_of_refuses r h
  exact ⟨_, verifyAndDecodeSeq_fixed r s (some x) (fun d v => hx σ d v s) calls⟩

/-- Verifiers that leave the counter alone leave it alone as a list. -/
theorem verifiersState_counter {σ : Type} (resp : HTTPResponse)
    (vs : List (Verifier (σ × Nat)))
    (hvs : ∀ v ∈ vs, ∀ st : σ × Nat, (v resp st).2.2 = st.2) :
    ∀ st : σ × Nat, (verifiersState resp vs st).2 = st.2 := by
  induction vs with
  | nil => intro st; rfl
  | cons v vs ih =>
    intro st
    have h1 := ih (fun w hw => hvs w (List.mem_cons_of_mem v hw)) (v resp st).2
    have h2 := hvs v (List.mem_cons_self v vs) st
    simp only [verifiersState, List.foldl_cons] at h1 ⊢
    rw [h1, h2]

theorem effectiveVerifiers_lift_counter {σ : Type} (resp : HTTPResponse)
    (vs : List (Verifier σ)) :
    ∀ v ∈ effectiveVerifiers (vs.map liftVerifier), ∀ st : σ × Nat, (v resp st).2.2 = st.2 := by
  intro v hv st
  unfold effectiveVerifiers at hv
  split at hv
  · simp only [List.mem_append, List.mem_map, List.mem_singleton] at hv
    rcases hv with ⟨w, _, rfl⟩ | rfl
    · rfl
    · rw [StatusOKVerifier_apply]
  · simp only [List.mem_map] at hv
    obtain ⟨w, _, rfl⟩ := hv
    rfl

/-- A call that reaches the decoder applies it once and closes the body. -/
theorem verifyAndDecode_counting_open {σ : Type} (r : Response) (resp : HTTPResponse)
    (call : Decoder σ × List (Verifier σ)) (s : σ) (n : Nat)
    (hopen : r.refuses = false) (hresp : r.response = some resp) :
    ∃ (e : Option GoError) (r1 : Response) (s1 : σ),
      r.VerifyAndDecode (countingCall call).1 (countingCall call).2 (s, n)
        = some (e, r1, (s1, n + 1)) ∧
      r1.refuses = true ∧ r1.isResponseBodyClosed = true ∧
      ∃ resp1, r1.response = some resp1 ∧ resp1.Body.closed = true := by
  have herr : r.err = none := by
    cases h : r.err with
    | none => rfl
    | some e => simp [Response.refuses, h] at hopen
  have hclosed : r.isResponseBodyClosed = false := by
    cases h : r.isResponseBodyClosed with
    | false => rfl
    | true => simp [Response.refuses, h] at hopen
  have hcount := verifiersState_counter resp
    (effectiveVerifiers (call.2.map liftVerifier))
    (effectiveVerifiers_lift_counter resp call.2) (s, n)
  have hcall := verifyAndDecode_open r resp (countingCall call).1 (countingCall call).2 (s, n)
    herr hclosed hresp
  simp only [countingCall, countingDecoder, hcount] at hcall
  exact ⟨_, _, _, hcall, by simp [Response.refuses], rfl, _, rfl, rfl⟩

/-! ## Single consumption: claim -/

/-- C12: over any finite sequence of `VerifyAndDecode` calls on one response,
with arbitrary decoders and verifier lists, the decoders are applied at most
once in total (the counter of applications ends at 0 or 1), and when a decoder
was applied the response counts as consumed and its body is closed, whatever
the decoder returned.  The sequence does run to its end on every response
that carries an error, a closed body or a non-nil `http.Response`. -/
theorem VerifyAndDecode_consumes_once {σ : Type} (r : Response)
    (calls : List (Decoder σ × List (Verifier σ))) (s : σ) :
    (∀ errs r1 s1 n,
      r.verifyAndDecodeSeq (calls.map countingCall) (s, 0) = some (errs, r1, (s1, n)) →
      n ≤ 1 ∧
      (n = 1 → r1.isResponseBodyClosed = true ∧
        ∃ resp1, r1.response = some resp1 ∧ resp1.Body.closed = true)) ∧
    ((r.refuses = true ∨ r.response ≠ none) →
      (r.verifyAndDecodeSeq (calls.map countingCall) (s, 0)).isSome = true) := by
  cases hrefuses : r.refuses with
  | true =>
    obtain ⟨errs0, h0⟩ := verifyAndDecodeSeq_of_refuses r hrefuses
      (calls.map countingCall) (s, 0)
    refine ⟨?_, fun _ => by rw [h0]; rfl⟩
    intro errs r1 s1 n h
    rw [h0] at h
    simp only [Option.some.injEq, Prod.mk.injEq] at h
    obtain ⟨_, _, _, hn⟩ := h
    subst hn
    exact ⟨Nat.zero_le 1, fun h01 => absurd h01 (by decide)⟩
  | false =>
    cases calls with
    | nil =>
      refine ⟨?_, fun _ => rfl⟩
      intro errs r1 s1 n h
      simp only [List.map_nil, Response.verifyAndDecodeSeq, Option.some.injEq,
        Prod.mk.injEq] at h
      obtain ⟨_, _, _, hn⟩ := h
      subst hn
      exact ⟨Nat.zero_le 1, fun h01 => absurd h01 (by decide)⟩
    | cons call rest =>
      cases hresp : r.response with
      | none =>
        have herr : r.err = none := by
          cases h : r.err with
          | none => rfl
          | some e => simp [Response.refuses, h] at hrefuses
        have hclosed : r.isResponseBodyClosed = false := by
          cases h : r.isResponseBodyClosed with
          | false => rfl
          | true => simp [Response.refuses, h] at hrefuses
        have hnone : r.verifyAndDecodeSeq ((call :: rest).map countingCall) (s, 0) = none := by
          simp [Response.verifyAndDecodeSeq, Response.VerifyAndDecode,
            Response.verifyAndDecode, herr, hclosed, hresp]
        refine ⟨?_, ?_⟩
        · intro errs r1 s1 n h
          rw [hnone] at h
          cases h
        · intro h
          rcases h with h | h
          · cases h
          · exact absurd rfl h
      | some resp =>
        obtain ⟨e, r1, s1, hcall, hr1, hr1closed, resp1, hresp1, hbody⟩ :=
          verifyAndDecode_counting_open r resp call s 0 hrefuses hresp
        obtain ⟨errs0, h0⟩ := verifyAndDecodeSeq_of_refuses r1 hr1
          (rest.map countingCall) (s1, 0 + 1)
        have hseq : r.verifyAndDecodeSeq ((call :: rest).map countingCall) (s, 0)
            = some (e :: errs0, r1, (s1, 0 + 1)) := by
          have hcall1 : r.VerifyAndDecode (countingDecoder call.1)
              (call.2.map liftVerifier) (s, 0) = some (e, r1, (s1, 0 + 1)) := hcall
          simp only [List.map_cons, Response.verifyAndDecodeSeq, hcall1, h0]
        refine ⟨?_, fun _ => by rw [hseq]; rfl⟩
        intro errs r2 s2 n h
        rw [hseq] at h
        simp only [Option.some.injEq, Prod.mk.injEq] at h
        obtain ⟨_, hr, _, hn⟩ := h
        subst hr
        subst hn
        exact ⟨Nat.le_refl 1, fun _ => ⟨hr1closed, resp1, hresp1, hbody⟩⟩

/-- C12, at three calls on `okResponse`: the decoder is applied by the first
call only, and the body is closed at the end. -/
theorem VerifyAndDecode_consumes_once_witness :
    okResponse.verifyAndDecodeSeq
        ([((NoOpDecoder : Decoder Unit), []),
          ((NoOpDecoder : Decoder Unit), []),
          ((NoOpDecoder : Decoder Unit), [HTTPStatusCodeVerifier StatusCreated])].map
            countingCall) ((), 0)
      = some ([none, some errClosedBody, some errClosedBody], okResponseConsumed, ((), 1)) ∧
    (1 ≤ 1 ∧
      (1 = 1 → okResponseConsumed.isResponseBodyClosed = true ∧
        ∃ resp1, okResponseConsumed.response = some resp1 ∧ resp1.Body.closed = true)) :=
  ⟨rfl,
   (VerifyAndDecode_consumes_once okResponse
      [((NoOpDecoder : Decoder Unit), []),
       ((NoOpDecoder : Decoder Unit), []),
       ((NoOpDecoder : Decoder Unit), [HTTPStatusCodeVerifier StatusCreated])] ()).1
      [none, some errClosedBody, some errClosedBody] okResponseConsumed () 1 rfl⟩

/-! ## Sticky failures: claim -/

/-- C15: when a `VerifyAndDecode` call on a response without transport error
and with an open body returns an error `E`, that error is the `errorSlice` of
the failures of that call and is stored in the response; every later call on
the response, with any decoder and any verifiers over any state, returns the
same `E` and leaves the response and the state of the closures as they are,
so neither a verifier nor a decoder runs again. -/
theorem VerifyAndDecode_failure_sticky {σ : Type} (r r1 : Response)
    (decoder : Decoder σ) (verifiers : List (Verifier σ)) (s s1 : σ) (E : GoError)
    (herr : r.err = none) (hopen : r.isResponseBodyClosed = false)
    (hfirst : r.VerifyAndDecode decoder verifiers s = some (some E, r1, s1)) :
    (∃ e es, E = GoError.errorSlice (e :: es)) ∧
    r1.err = some E ∧
    (∀ (τ : Type) (decoder2 : Decoder τ) (verifiers2 : List (Verifier τ)) (t : τ),
      r1.VerifyAndDecode decoder2 verifiers2 t = some (some E, r1, t)) ∧
    (∀ (τ : Type) (calls : List (Decoder τ × List (Verifier τ))) (t : τ),
      r1.verifyAndDecodeSeq calls t
        = some (List.replicate calls.length (some E), r1, t)) := by
  cases hresp : r.response with
  | none =>
    simp [Response.VerifyAndDecode, Response.verifyAndDecode, herr, hopen, hresp] at hfirst
  | some resp =>
    rw [verifyAndDecode_open r resp decoder verifiers s herr hopen hresp] at hfirst
    simp only [Option.some.injEq, Prod.mk.injEq] at hfirst
    obtain ⟨h1, h2, _⟩ := hfirst
    have hr1err : r1.err = some E := by rw [← h2, ← h1]
    have hslice : ∃ e es, E = GoError.errorSlice (e :: es) := by
      cases hagg : aggregatedErrors resp decoder (effectiveVerifiers verifiers) s with
      | nil => rw [hagg] at h1; cases h1
      | cons e es =>
        rw [hagg] at h1
        exact ⟨e, es, (Option.some.inj h1).symm⟩
    have hcall : ∀ (τ : Type) (decoder2 : Decoder τ) (verifiers2 : List (Verifier τ)) (t : τ),
        r1.VerifyAndDecode decoder2 verifiers2 t = some (some E, r1, t) :=
      fun τ d v t => verifyAndDecode_of_err r1 E d v t hr1err
    exact ⟨hslice, hr1err, hcall,
      fun τ calls t => verifyAndDecodeSeq_fixed r1 t (some E) (fun d v => hcall τ d v t) calls⟩

/-- C15, at `brokenResponse`: the first call fails on the status and on the
body; two later calls, one of them asking for another status with a counting
decoder, get the same error, and the counter stays at 0. -/
theorem VerifyAndDecode_failure_sticky_witness :
    brokenResponseConsumed.verifyAndDecodeSeq
        [(countingDecoder (NoOpDecoder : Decoder Unit), []),
         (countingDecoder (NoOpDecoder : Decoder Unit),
            [liftVerifier (HTTPStatusCodeVerifier 500)])] ((), 0)
      = some ([brokenResponseConsumed.err, brokenResponseConsumed.err],
              brokenResponseConsumed, ((), 0)) :=
  (VerifyAndDecode_failure_sticky brokenResponse brokenResponseConsumed
    (NoOpDecoder : Decoder Unit) [] () ()
    (GoError.errorSlice
      [ GoError.errorString "Unexpected status code 500. Expected 200",
        GoError.external "unexpected EOF" ]) rfl rfl rfl).2.2.2 (Unit × Nat)
    [(countingDecoder (NoOpDecoder : Decoder Unit), []),
     (countingDecoder (NoOpDecoder : Decoder Unit),
        [liftVerifier (HTTPStatusCodeVerifier 500)])] ((), 0)

/-! ## Where the retry engine polls the context: lemma and claim -/

/-- Every probe invocation the loop makes is preceded by a `select` that ended
by the timer, and the loop makes no invocation after a `select` that ended by
`ctx.Done()`. -/
theorem retryLoop_waits_before_calls {σ : Type} (ctx : Context) (fn : Probe σ) :
    ∀ (fuel : Nat) (shouldRetry : Bool) (err : Option GoError) (c w : Nat) (s : σ)
      (r : RetryResult σ),
      c = w + 1 → (∀ j, j < w → ctx.doneAt j = none) →
      retryLoop ctx fn fuel shouldRetry err c w s = some r →
      c ≤ r.calls ∧ r.calls ≤ r.waits + 1 ∧ (∀ j, j + 1 < r.calls → ctx.doneAt j = none) := by
  intro fuel
  induction fuel with
  | zero =>
    intro shouldRetry err c w s r hc hinv h
    by_cases hcond : (err.isNone && shouldRetry) = true
    · simp [retryLoop, hcond] at h
    · rw [retryLoop_stop ctx fn 0 shouldRetry err c w s (by simpa using hcond)] at h
      cases h
      exact ⟨Nat.le_refl _, by simp [hc], fun j hj => hinv j (by simp only at hj; omega)⟩
  | succ fuel ih =>
    intro shouldRetry err c w s r hc hinv h
    by_cases hcond : (err.isNone && shouldRetry) = true
    · have herr : err = none := by
        cases err with
        | none => rfl
        | some e => simp at hcond
      have hsr : shouldRetry = true := by
        cases shouldRetry with
        | true => rfl
        | false => simp at hcond
      subst herr
      subst hsr
      cases hd : ctx.doneAt w with
      | some e =>
        rw [retryLoop_ctxDone ctx fn fuel c w s e hd] at h
        cases h
        exact ⟨Nat.le_refl _, by simp only; omega,
          fun j hj => hinv j (by simp only at hj; omega)⟩
      | none =>
        rw [retryLoop_timer ctx fn fuel c w s hd] at h
        have hinv1 : ∀ j, j < w + 1 → ctx.doneAt j = none := by
          intro j hj
          by_cases hjw : j < w
          · exact hinv j hjw
          · have : j = w := by omega
            rw [this]; exact hd
        obtain ⟨h1, h2, h3⟩ := ih _ _ (c + 1) (w + 1) _ r (by omega) hinv1 h
        exact ⟨by omega, h2, h3⟩
    · rw [retryLoop_stop ctx fn (fuel + 1) shouldRetry err c w s (by simpa using hcond)] at h
      cases h
      exact ⟨Nat.le_refl _, by simp [hc], fun j hj => hinv j (by simp only at hj; omega)⟩

/-- C14 fails as stated: with a context that is done from the start the probe
is invoked all the same, and when it answers `(false, nil)` the call returns
nil, not the error of the context. -/
theorem retryUntilFalseOrError_cancelled_context_counterexample :
    (doneFromCtx none 0 GoError.canceled).doneAt 0 = some GoError.canceled ∧
    retryUntilFalseOrError (doneFromCtx none 0 GoError.canceled) 0
        (scriptedProbe [] (false, none)) 5 0
      = some { err := none, calls := 1, waits := 0, state := 1 } :=
  ⟨rfl, rfl⟩

/-- C14, amended: `retryUntilFalseOrError` looks at the context only in the
`select` of an inter-attempt wait.  The first probe invocation is made whatever
the context says (every run that returns has made at least one invocation);
every later invocation comes after a wait that ended by the timer; once a wait
ends by `ctx.Done()` no further invocation is made and `ctx.Err()` is returned.
So a call with a context that is already done still invokes the probe; when
its first `select`, if reached, takes the `ctx.Done()` case, the probe is
invoked exactly once, and the call returns `ctx.Err()` when that invocation
answers `(true, nil)` and the probe's own error, or nil, otherwise. -/
theorem retryUntilFalseOrError_polls_in_waits {σ : Type} (ctx : Context) (d : Time)
    (fn : Probe σ) (s : σ) :
    (∀ fuel r, retryUntilFalseOrError ctx d fn fuel s = some r →
      1 ≤ r.calls ∧ r.calls ≤ r.waits + 1 ∧
      (∀ j, j + 1 < r.calls → ctx.doneAt j = none)) ∧
    (∀ n e,
      (∀ j, j < n → probeResult fn s j = (true, none) ∧ ctx.doneAt j = none) →
      probeResult fn s n = (true, none) → ctx.doneAt n = some e →
      ∀ fuel, n < fuel →
        retryUntilFalseOrError ctx d fn fuel s
          = some { err := some e, calls := n + 1, waits := n + 1,
                   state := probeState fn s (n + 1) }) ∧
    (∀ e, ctx.doneAt 0 = some e → ∀ fuel, 0 < fuel →
      ∃ r, retryUntilFalseOrError ctx d fn fuel s = some r ∧
        r.calls = 1 ∧ r.state = (fn s).2 ∧
        r.err = (if ((fn s).1.2.isNone && (fn s).1.1) = true then some e else (fn s).1.2)) := by
  refine ⟨?_, ?_, ?_⟩
  · intro fuel r h
    exact retryLoop_waits_before_calls ctx fn fuel _ _ 1 0 _ r rfl
      (fun j hj => absurd hj (Nat.not_lt_zero j)) h
  · intro n e hreach hn hdone fuel hfuel
    obtain ⟨f, rfl⟩ : ∃ f, fuel = (f + 1) + n := ⟨fuel - n - 1, by omega⟩
    rw [retryUntilFalseOrError_advance ctx d fn s n (f + 1) hreach, hn]
    exact retryLoop_ctxDone ctx fn f (n + 1) n _ e hdone
  · intro e hdone fuel hfuel
    obtain ⟨f, rfl⟩ : ∃ f, fuel = f + 1 := ⟨fuel - 1, by omega⟩
    by_cases hcond : ((fn s).1.2.isNone && (fn s).1.1) = true
    · have herr : (fn s).1.2 = none := by
        cases h : (fn s).1.2 with
        | none => rfl
        | some x => simp [h] at hcond
      have hsr : (fn s).1.1 = true := by
        cases h : (fn s).1.1 with
        | true => rfl
        | false => simp [h] at hcond
      have hrun : retryUntilFalseOrError ctx d fn (f + 1) s
          = some { err := some e, calls := 1, waits := 0 + 1, state := (fn s).2 } := by
        simp only [retryUntilFalseOrError, herr, hsr]
        exact retryLoop_ctxDone ctx fn f 1 0 _ e hdone
      exact ⟨_, hrun, rfl, rfl, by simp [hcond]⟩
    · have hrun : retryUntilFalseOrError ctx d fn (f + 1) s
          = some { err := (fn s).1.2, calls := 1, waits := 0, state := (fn s).2 } := by
        simp only [retryUntilFalseOrError]
        exact retryLoop_stop ctx fn (f + 1) _ _ 1 0 _ (by simpa using hcond)
      exact ⟨_, hrun, rfl, rfl, by simp [hcond]⟩

/-- C14 amended, at a cancelled context and a probe that asks for a retry: one
invocation is made, then the first `select` returns `context.Canceled`. -/
theorem retryUntilFalseOrError_polls_in_waits_witness :
    retryUntilFalseOrError (doneFromCtx none 0 GoError.canceled) 0
        (scriptedProbe [] (true, none)) 1 0
      = some { err := some GoError.canceled, calls := 1, waits := 1, state := 1 } :=
  (retryUntilFalseOrError_polls_in_waits (doneFromCtx none 0 GoError.canceled) 0
    (scriptedProbe [] (true, none)) 0).2.1 0 GoError.canceled
    (by intro j hj; omega) rfl rfl 1 (by decide)

/-! ## Scheduling with a Location header: lemmas -/

theorem matchItem_of_ne_slash (c : Char) (cs : List Char) (hc : c ≠ '/') :
    matchItem (c :: cs) = none := by
  unfold matchItem
  split
  · rename_i h
    simp only [List.cons.injEq] at h
    exact absurd h.1 hc
  · rfl

theorem matchItem_slash_digits (ds : List Char) (hds : ∀ c ∈ ds, c.isDigit = true) :
    matchItem ('/' :: ds) = none := by
  unfold matchItem
  split
  · rename_i h
    simp only [List.cons.injEq, true_and] at h
    have hi := hds 'i' (by rw [h]; exact List.mem_cons_self _ _)
    simp [Char.isDigit] at hi
  · rfl

theorem digit_ne_slash (c : Char) (hc : c.isDigit = true) : c ≠ '/' := by
  intro h
  subst h
  simp [Char.isDigit] at hc

/-- When no match starts further right, the pattern matches where the tail
`/item/(\d+)` matches. -/
theorem matchQueueIDRegex_cons_none (c : Char) (cs : List Char)
    (h : matchQueueIDRegex cs = none) :
    matchQueueIDRegex (c :: cs) = matchItem (c :: cs) := by
  rw [matchQueueIDRegex, h]
  simp only [ite_self]

/-- A match further right is preferred as long as `.` accepts the character. -/
theorem matchQueueIDRegex_cons_some (c : Char) (cs capture : List Char)
    (hc : c ≠ Char.ofNat 10) (h : matchQueueIDRegex cs = some capture) :
    matchQueueIDRegex (c :: cs) = some capture := by
  rw [matchQueueIDRegex, h]
  simp only [hc, ne_eq, not_false_eq_true, if_true]

theorem matchQueueIDRegex_digits (ds : List Char) (hds : ∀ c ∈ ds, c.isDigit = true) :
    matchQueueIDRegex ds = none := by
  induction ds with
  | nil => rfl
  | cons d ds ih =>
    have hd := hds d (List.mem_cons_self d ds)
    have hrest := ih (fun c hc => hds c (List.mem_cons_of_mem d hc))
    rw [matchQueueIDRegex_cons_none d ds hrest]
    exact matchItem_of_ne_slash d ds (digit_ne_slash d hd)

theorem digitRun_digits (ds : List Char) (hds : ∀ c ∈ ds, c.isDigit = true) :
    digitRun ds = ds := by
  induction ds with
  | nil => rfl
  | cons d ds ih =>
    simp only [digitRun, hds d (List.mem_cons_self d ds), if_true,
      ih (fun c hc => hds c (List.mem_cons_of_mem d hc))]

theorem matchItem_marker (ds : List Char) (hne : ds ≠ [])
    (hds : ∀ c ∈ ds, c.isDigit = true) :
    matchItem (itemMarker ++ ds) = some ds := by
  cases ds with
  | nil => exact absurd rfl hne
  | cons d ds =>
    have hrun := digitRun_digits (d :: ds) hds
    simp only [itemMarker, List.cons_append, List.nil_append, matchItem, hrun]

/-- No match of the pattern starts after the first character of `/item/<n>`. -/
theorem matchQueueIDRegex_inside_marker (ds : List Char)
    (hds : ∀ c ∈ ds, c.isDigit = true) :
    matchQueueIDRegex ('i' :: 't' :: 'e' :: 'm' :: '/' :: ds) = none := by
  have h0 := matchQueueIDRegex_digits ds hds
  have h1 : matchQueueIDRegex ('/' :: ds) = none := by
    rw [matchQueueIDRegex_cons_none _ _ h0]
    exact matchItem_slash_digits ds hds
  have h2 : matchQueueIDRegex ('m' :: '/' :: ds) = none := by
    rw [matchQueueIDRegex_cons_none _ _ h1]
    exact matchItem_of_ne_slash 'm' _ (by decide)
  have h3 : matchQueueIDRegex ('e' :: 'm' :: '/' :: ds) = none := by
    rw [matchQueueIDRegex_cons_none _ _ h2]
    exact matchItem_of_ne_slash 'e' _ (by decide)
  have h4 : matchQueueIDRegex ('t' :: 'e' :: 'm' :: '/' :: ds) = none := by
    rw [matchQueueIDRegex_cons_none _ _ h3]
    exact matchItem_of_ne_slash 't' _ (by decide)
  rw [matchQueueIDRegex_cons_none _ _ h4]
  exact matchItem_of_ne_slash 'i' _ (by decide)

/-- The greedy `.*` runs over a prefix without line feed up to the marker. -/
theorem matchQueueIDRegex_marker (pre ds : List Char) (hne : ds ≠ [])
    (hds : ∀ c ∈ ds, c.isDigit = true) (hpre : ∀ c ∈ pre, c ≠ Char.ofNat 10) :
    matchQueueIDRegex (pre ++ (itemMarker ++ ds)) = some ds := by
  induction pre with
  | nil =>
    have hin := matchQueueIDRegex_inside_marker ds hds
    have hitem := matchItem_marker ds hne hds
    have hstep := matchQueueIDRegex_cons_none '/' _ hin
    exact hstep.trans hitem
  | cons c pre ih =>
    have hc := hpre c (List.mem_cons_self c pre)
    have hrest := ih (fun x hx => hpre x (List.mem_cons_of_mem c hx))
    exact matchQueueIDRegex_cons_some c _ ds hc hrest

theorem findQueueIDRegex_marker (pre ds : List Char) (hne : ds ≠ [])
    (hds : ∀ c ∈ ds, c.isDigit = true) (hpre : ∀ c ∈ pre, c ≠ Char.ofNat 10) :
    findQueueIDRegex (pre ++ (itemMarker ++ ds)) = some ds := by
  have hm := matchQueueIDRegex_marker pre ds hne hds hpre
  cases hl : pre ++ (itemMarker ++ ds) with
  | nil => cases pre <;> simp [itemMarker] at hl
  | cons c cs =>
    rw [hl] at hm
    simp only [findQueueIDRegex, hm]

theorem FindStringSubmatch_marker (pre num : String) (hne : num ≠ "")
    (hdigits : ∀ c ∈ num.toList, c.isDigit = true)
    (hpre : ∀ c ∈ pre.toList, c ≠ Char.ofNat 10) :
    FindStringSubmatch (pre ++ "/item/" ++ num) = some num := by
  have hne1 : num.toList ≠ [] := by
    intro h
    apply hne
    cases num with
    | mk data => simp only [String.toList] at h; rw [h]
  have hlist : (pre ++ "/item/" ++ num).toList = pre.toList ++ (itemMarker ++ num.toList) := by
    simp only [String.toList, String.data_append, List.append_assoc]
    rfl
  unfold FindStringSubmatch
  rw [hlist, findQueueIDRegex_marker pre.toList num.toList hne1 hdigits hpre]
  rfl

theorem decimal_foldl_ge (ds : List Char) :
    ∀ acc : Nat, acc ≤ ds.foldl (fun n c => n * 10 + (c.toNat - 48)) acc := by
  induction ds with
  | nil => intro acc; exact Nat.le_refl acc
  | cons d ds ih =>
    intro acc
    have := ih (acc * 10 + (d.toNat - 48))
    simp only [List.foldl_cons]
    omega

/-- On a string of digits whose value fits, the loop of `ParseUint` computes
the value and reports no error. -/
theorem parseUintLoop_digits (ds : List Char) (hds : ∀ c ∈ ds, c.isDigit = true) :
    ∀ acc : Nat, ds.foldl (fun n c => n * 10 + (c.toNat - 48)) acc < 2 ^ 32 →
      parseUintLoop (2 ^ 32 - 1) ds acc
        = (ds.foldl (fun n c => n * 10 + (c.toNat - 48)) acc, none) := by
  induction ds with
  | nil => intro acc _; rfl
  | cons d ds ih =>
    intro acc hval
    have hd := hds d (List.mem_cons_self d ds)
    simp only [List.foldl_cons] at hval ⊢
    have hge := decimal_foldl_ge ds (acc * 10 + (d.toNat - 48))
    have hstep : acc * 10 + (d.toNat - 48) < 2 ^ 32 := Nat.lt_of_le_of_lt hge hval
    have hmod : (acc * 10 + (d.toNat - 48)) % 2 ^ 64 = acc * 10 + (d.toNat - 48) :=
      Nat.mod_eq_of_lt (Nat.lt_trans hstep (by norm_num))
    have hcut : ¬ acc ≥ (2 ^ 64 - 1) / 10 + 1 := by
      have h32 : (2 : Nat) ^ 32 = 4294967296 := by norm_num
      have h64 : ((2 : Nat) ^ 64 - 1) / 10 + 1 = 1844674407370955162 := by norm_num
      rw [h64]
      rw [h32] at hstep
      omega
    have hover : ¬ (acc * 10 + (d.toNat - 48) < acc * 10 ∨
        acc * 10 + (d.toNat - 48) > 2 ^ 32 - 1) := by
      have h32 : (2 : Nat) ^ 32 = 4294967296 := by norm_num
      rw [h32] at hstep ⊢
      omega
    rw [parseUintLoop]
    simp only [hd, if_true, hcut, if_false, hmod, hover]
    exact ih (fun c hc => hds c (List.mem_cons_of_mem d hc)) _ hval

theorem ParseUint_digits (num : String) (hne : num ≠ "")
    (hdigits : ∀ c ∈ num.toList, c.isDigit = true)
    (hval : decimalValue num.toList < 2 ^ 32) :
    ParseUint num 32 = (decimalValue num.toList, none) := by
  unfold ParseUint
  rw [if_neg hne]
  exact parseUintLoop_digits num.toList hdigits 0 hval

/-! ## Scheduling with a Location header: claim -/

/-- C13 fails as stated: a "201 Created" answer with the Location header of the
test, `http://testurl.com/queue/item/3`, whose body breaks off while it is
drained, makes `NoOpDecoder` fail, and `ScheduleBuild` returns queue id 0, not
3. -/
theorem ScheduleBuild_broken_body_counterexample :
    (createdAt "http://testurl.com/queue/item/3"
        (some (GoError.external "unexpected EOF"))).StatusCode = 201 ∧
    (createdAt "http://testurl.com/queue/item/3"
        (some (GoError.external "unexpected EOF"))).Header.Get "Location"
      = "http://testurl.com/queue" ++ "/item/" ++ "3" ∧
    decimalValue "3".toList = 3 ∧
    ScheduleBuild none (Except.ok (createdAt "http://testurl.com/queue/item/3"
        (some (GoError.external "unexpected EOF")))) = (0, none) :=
  ⟨rfl, (by decide), (by decide), rfl⟩

/-- C13, amended: for an answer with status 201 whose Location header is
`<prefix>/item/<n>` (a header value holds no line feed), `<n>` being a
non-empty string of decimal digits with a value below `2^32`, and whose body
is drained without a read error, `ScheduleBuild` returns the queue id `n` and
a nil error. -/
theorem ScheduleBuild_with_location (resp : HTTPResponse) (pre num : String)
    (hstatus : resp.StatusCode = 201)
    (hlocation : resp.Header.Get "Location" = pre ++ "/item/" ++ num)
    (hpre : ∀ c ∈ pre.toList, c ≠ Char.ofNat 10)
    (hne : num ≠ "") (hdigits : ∀ c ∈ num.toList, c.isDigit = true)
    (hval : decimalValue num.toList < 2 ^ 32)
    (hbody : resp.Body.readErr = none) :
    ScheduleBuild none (Except.ok resp) = (decimalValue num.toList, none) := by
  have hfind := FindStringSubmatch_marker pre num hne hdigits hpre
  have hparse := ParseUint_digits num hne hdigits hval
  have hq : ∀ q : Nat, queueIDFromLocation resp q = (none, decimalValue num.toList) := by
    intro q
    simp only [queueIDFromLocation, hlocation, hfind, hparse]
  have hs : ∀ q : Nat, (HTTPStatusCodeVerifier StatusCreated : Verifier Nat) resp q = (none, q) := by
    intro q
    simp [HTTPStatusCodeVerifier, StatusCreated, hstatus]
  have hopen := verifyAndDecode_open (Requestor.Do none (Except.ok resp)) resp
    (NoOpDecoder : Decoder Nat) [HTTPStatusCodeVerifier StatusCreated, queueIDFromLocation] 0
    rfl rfl rfl
  have hchain := DoVerifyAndDecode_eq _ _ _ _ _ _ hopen
  have heff : effectiveVerifiers
      [(HTTPStatusCodeVerifier StatusCreated : Verifier Nat), queueIDFromLocation]
      = [HTTPStatusCodeVerifier StatusCreated, queueIDFromLocation] :=
    effectiveVerifiers_of_ne_nil _ (by simp)
  have hstate : verifiersState resp
      [(HTTPStatusCodeVerifier StatusCreated : Verifier Nat), queueIDFromLocation] 0
      = decimalValue num.toList := by
    simp only [verifiersState, List.foldl_cons, List.foldl_nil, hs, hq]
  have hagg : aggregatedErrors resp (NoOpDecoder : Decoder Nat)
      [HTTPStatusCodeVerifier StatusCreated, queueIDFromLocation] 0 = [] := by
    simp only [aggregatedErrors, verifierErrors, hs, hq, hstate, NoOpDecoder, hbody,
      Option.toList, List.append_nil]
  rw [heff, hagg, hstate] at hchain
  simp only [ScheduleBuild, hchain, NoOpDecoder]
  rw [Nat.mod_eq_of_lt hval]

/-- C13 amended, at the case of `TestJobApi_ScheduleBuild`: the Location header
`http://testurl.com/queue/item/3` gives queue id 3. -/
theorem ScheduleBuild_with_location_witness :
    ScheduleBuild none (Except.ok (createdAt "http://testurl.com/queue/item/3" none))
      = (3, none) :=
  ScheduleBuild_with_location (createdAt "http://testurl.com/queue/item/3" none)
    "http://testurl.com/queue" "3" rfl (by decide) (by decide) (by decide) (by decide)
    (by decide) rfl

end Gojenkins
